import Mathlib

set_option maxRecDepth 8000

/-!
Verification of the spreadsheet-as-database engine of the Vila Acadia
timesheet backend (`src/backend/gsheets_service.py`), against its
natural-language specification.

The Python service is shallowly embedded: worksheets become grids of
string-valued cells (a cell map with a support bound, mirroring the remote
store), the service methods become Lean functions threading the worksheet
state and a log of the writes they issue, machine arithmetic becomes
`Nat`/`Int`/`ℚ`, and raised exceptions become `Except` errors.  Cosmetic
calls (`format`, `freeze`) carry no data and are not modelled as writes,
matching the spec's classification of formatting as best-effort.
-/

namespace VilaAcadia

/-! ## Python string primitives

`str.strip`, `str.lower` and `str.split` as used by the service, embedded
over `List Char`.  `pyLowerChar` lowers the ASCII range, which covers every
cased character the service compares (employee names are compared after
`.strip().lower()` on both sides). -/

def pyIsSpace (c : Char) : Bool :=
  c = ' ' || c = '\t' || c = '\n' || c = '\r' || c = Char.ofNat 11 || c = Char.ofNat 12

def pyStripL (l : List Char) : List Char :=
  ((l.dropWhile pyIsSpace).reverse.dropWhile pyIsSpace).reverse

/-- Python `s.strip()`. -/
def pyStrip (s : String) : String := String.mk (pyStripL s.data)

def pyLowerChar (c : Char) : Char :=
  if 'A' ≤ c && c ≤ 'Z' then Char.ofNat (c.toNat + 32) else c

/-- Python `s.lower()` (ASCII case range; the roster and header strings the
service compares contain no other cased characters). -/
def pyLower (s : String) : String := String.mk (s.data.map pyLowerChar)

/-- Python `s.split(sep)` for a single-character separator. -/
def splitOnCh (sep : Char) : List Char → List (List Char)
  | [] => [[]]
  | c :: rest =>
    match splitOnCh sep rest with
    | [] => [[]]
    | g :: gs => if c = sep then [] :: g :: gs else (c :: g) :: gs

def pyDigit (c : Char) : Bool := '0' ≤ c && c ≤ '9'

/-- Python `int(s)` restricted to plain digit strings (the request models
validate times with `strptime("%H:%M")`, which only admits digits). -/
def parseNat (l : List Char) : Option Nat :=
  if l ≠ [] ∧ l.all pyDigit = true then
    some (l.foldl (fun a c => a * 10 + (c.toNat - 48)) 0)
  else none

/-! ## Decimal rendering

Digit strings for the numeric literals the engine interpolates into
formulas (`f'...{row}...'`) and for the numbers it writes into cells (the
store renders a written number back as its decimal string, e.g. the
employee numbers `1..70` read back as `"1"`, ...).  The recursions carry a
fuel argument (first component) so that they are structural and evaluate
inside the kernel; `fuel = n` always suffices since the value shrinks by a
factor of 10 or 26 each step. -/

def natDigsAux : Nat → Nat → List Char
  | _, 0 => []
  | 0, _ + 1 => []
  | fuel + 1, n + 1 => natDigsAux fuel ((n + 1) / 10) ++ [Char.ofNat (48 + (n + 1) % 10)]

def natDigs (n : Nat) : List Char := natDigsAux n n

/-- Decimal rendering of a natural number. -/
def natStr (n : Nat) : String := if n = 0 then "0" else String.mk (natDigs n)

/-- Decimal rendering of an integer. -/
def intStr (i : ℤ) : String := if i < 0 then "-" ++ natStr i.natAbs else natStr i.toNat

/-- The string the store hands back when a cell holding a number written by
this engine is read.  The engine writes integers (employee numbers) and
2-decimal hour values; integers read back as plain digit strings and
non-integers as integer part, point, and the hundredths. -/
def numCell (q : ℚ) : String :=
  if q.den = 1 then intStr q.num
  else intStr ⌊q⌋ ++ "." ++
    String.mk [Char.ofNat (48 + ((q - ⌊q⌋) * 100).num.toNat / 10 % 10),
               Char.ofNat (48 + ((q - ⌊q⌋) * 100).num.toNat % 10)]

/-! ## Dates and the period calculator -/

/-- A calendar date, as parsed by `datetime.strptime(date, "%Y-%m-%d")`. -/
structure Date where
  year : Nat
  month : Nat
  day : Nat
deriving DecidableEq, Repr

/-- `strftime("%d")`-style zero-padded two-digit field (days and months fit
in two digits for every date `strptime` accepts). -/
def pad2 (n : Nat) : String :=
  String.mk [Char.ofNat (48 + n / 10 % 10), Char.ofNat (48 + n % 10)]

/-- `strftime("%Y")`-style four-digit year. -/
def pad4 (n : Nat) : String :=
  String.mk [Char.ofNat (48 + n / 1000 % 10), Char.ofNat (48 + n / 100 % 10),
             Char.ofNat (48 + n / 10 % 10), Char.ofNat (48 + n % 10)]

/-- `date_obj.strftime("%d/%m/%Y")`, the date-column header format. -/
def formatDMY (d : Date) : String := pad2 d.day ++ "/" ++ pad2 d.month ++ "/" ++ pad4 d.year

/-- `date_obj.strftime("%m-%Y")`, the month sheet name. -/
def monthSheetName (d : Date) : String := pad2 d.month ++ "-" ++ pad4 d.year

/-- Strict lexicographic order on calendar days (how two `datetime`s with
equal time-of-day compare). -/
def dateLtB (a b : Date) : Bool :=
  a.year < b.year ||
    (a.year = b.year && (a.month < b.month || (a.month = b.month && a.day < b.day)))

/-- A moment in time: a calendar day plus the time of day elapsed since its
midnight (in arbitrary positive units; `datetime.now()` carries microsecond
time-of-day, and `0` is exactly midnight). -/
structure DateTime where
  date : Date
  tod : Nat
deriving DecidableEq, Repr

/-- Python `datetime` strict comparison `a > b` where `b` is a midnight
instant: lexicographic on the day, then on the time of day. -/
def dtAfterMidnightOf (a : DateTime) (b : Date) : Bool :=
  dateLtB b a.date || (a.date = b && 0 < a.tod)

/-- `datetime(year, month+1, 2)` (December wraps to January 2 of the next
year): the instant `is_month_closed` compares against. -/
def cutoffDate (d : Date) : Date :=
  if d.month = 12 then ⟨d.year + 1, 1, 2⟩ else ⟨d.year, d.month + 1, 2⟩

/-- `GoogleSheetsService.is_month_closed`: `today > cutoff_date` where
`cutoff_date` is midnight at the start of the 2nd of the following month. -/
def is_month_closed (d : Date) (now : DateTime) : Bool :=
  dtAfterMidnightOf now (cutoffDate d)

/-! ## Shift duration calculator -/

/-- `time_str.split(':')` with both fields converted by `int`, as in
`map(int, start_time.split(':'))`. -/
def parseTime (s : String) : Option (Nat × Nat) :=
  match splitOnCh ':' s.data with
  | [h, m] =>
    match parseNat h, parseNat m with
    | some hv, some mv => some (hv, mv)
    | _, _ => none
  | _ => none

/-- Python `round` to an integer: round half to even. -/
def roundHalfEven (q : ℚ) : ℤ :=
  if q - ⌊q⌋ < 1/2 then ⌊q⌋
  else if 1/2 < q - ⌊q⌋ then ⌊q⌋ + 1
  else if ⌊q⌋ % 2 = 0 then ⌊q⌋ else ⌊q⌋ + 1

/-- Minutes elapsed between the two wall-clock readings, adding a day when
`end_dt <= start_dt` (the midnight-crossing rule). -/
def shiftMinutes (sMin eMin0 : ℤ) : ℤ :=
  (if eMin0 ≤ sMin then eMin0 + 1440 else eMin0) - sMin

/-- `diff.total_seconds() / 3600` rounded to two decimals
(`round(hours, 2)`), for a shift of `d` minutes. -/
def roundedHours (d : ℤ) : ℚ := (roundHalfEven ((d : ℚ) * 100 / 60) : ℚ) / 100

/-- `GoogleSheetsService.calculate_hours`. -/
def calculate_hours (startT endT : String) : Option ℚ :=
  match parseTime startT, parseTime endT with
  | some (sh, sm), some (eh, em) =>
    some (roundedHours (shiftMinutes (sh * 60 + sm) (eh * 60 + em)))
  | _, _ => none

/-! ## Column letters -/

/-- The letter list built by `_col_index_to_letter`'s loop
(`col_index -= 1; result = chr(col_index % 26 + ord('A')) + result;
col_index //= 26`); fuel-structured as above. -/
def colLettersAux : Nat → Nat → List Char
  | _, 0 => []
  | 0, _ + 1 => []
  | fuel + 1, n + 1 => colLettersAux fuel (n / 26) ++ [Char.ofNat (n % 26 + 65)]

def colLetters (n : Nat) : List Char := colLettersAux n n

/-- `GoogleSheetsService._col_index_to_letter` (1-based index to
spreadsheet column letters). -/
def col_index_to_letter (n : Nat) : String := String.mk (colLetters n)

/-- Value of one column letter (`A` = 1, ..., `Z` = 26). -/
def letterVal (c : Char) : Nat := c.toNat - 64

/-- Reference inverse of the column-letter map: reads letters back as a
base-26 numeral with digits 1..26 and no zero digit. -/
def letter_to_index (s : String) : Nat :=
  s.data.foldl (fun a c => a * 26 + letterVal c) 0

/-! ## The worksheet model

A worksheet of the remote store: a cell map (1-based row and column
indices; `""` is the empty cell, a number written into a cell is stored as
its decimal rendering, which is also what a read hands back) together with
scan bounds `rmax`/`cmax` covering the support.  `gspread`'s `col_values` /
`row_values` return the line from index 1 through its last non-empty cell;
they are modelled as a bounded scan with the trailing empties dropped,
which agrees with the store whenever the support bound is honest
(`WsBounded`).  Writes grow the bounds, so the grid behaves as the spec's
unbounded key-range store. -/

structure Worksheet where
  cell : Nat → Nat → String
  rmax : Nat
  cmax : Nat

/-- All non-empty cells lie inside the scan bounds. -/
def WsBounded (w : Worksheet) : Prop :=
  ∀ r c, w.cell r c ≠ "" → r ≤ w.rmax ∧ c ≤ w.cmax

def getCell (w : Worksheet) (r c : Nat) : String := w.cell r c

/-- `worksheet.update_cell(r, c, v)`. -/
def setCell (w : Worksheet) (r c : Nat) (v : String) : Worksheet :=
  ⟨fun r' c' => if r' = r ∧ c' = c then v else w.cell r' c', max w.rmax r, max w.cmax c⟩

/-- A batch of single-cell writes, applied left to right (how the embedded
methods issue their `update` / `update_cell` calls). -/
def applyWrites : Worksheet → List (Nat × Nat × String) → Worksheet
  | w, [] => w
  | w, e :: rest => applyWrites (setCell w e.1 e.2.1 e.2.2) rest

/-- Drop trailing empty cells (gspread lines stop at the last non-empty
value). -/
def dropTrailingEmpty : List String → List String
  | [] => []
  | v :: rest =>
    if dropTrailingEmpty rest = [] ∧ v = "" then [] else v :: dropTrailingEmpty rest

/-- A line of a worksheet: values at indices `1..bound` with the trailing
empties dropped. -/
def lineVals (g : Nat → String) (bound : Nat) : List String :=
  dropTrailingEmpty ((List.range bound).map fun i => g (i + 1))

/-- `worksheet.row_values(r)`. -/
def rowValues (w : Worksheet) (r : Nat) : List String :=
  lineVals (fun c => w.cell r c) w.cmax

/-- `worksheet.col_values(c)`. -/
def colValues (w : Worksheet) (c : Nat) : List String :=
  lineVals (fun r => w.cell r c) w.rmax

/-- 1-based indexed scan over a line, mirroring
`for idx, v in enumerate(values, start=1): if p(idx, v): return idx`. -/
def scanRows (p : Nat → String → Bool) : List String → Nat → Option Nat
  | [], _ => none
  | v :: rest, idx => if p idx v then some idx else scanRows p rest (idx + 1)

/-! ## The engine -/

/-- Store events a call can issue: a cell write on the month worksheet, or
the allocation of a new worksheet. -/
inductive Ev where
  | write (row col : Nat) (value : String)
  | addWorksheet (title : String) (rows cols : Nat)
deriving DecidableEq, Repr

/-- The raised errors of the engine (`raise Exception(...)` /
`raise ValueError(...)`). -/
inductive Err where
  | duplicateEntry (who : String) (formattedDate : String)
  | capacityExceeded
  | notInitialized (tab : String)
deriving DecidableEq, Repr

/-- The exception message attached to each error by the source. -/
def errMessage : Err → String
  | .duplicateEntry who fd =>
      "Hours already submitted for " ++ who ++ " on " ++ fd ++
        ". Manual manager approval required for duplicate entry."
  | .capacityExceeded => "Maximum number of employees (70) reached"
  | .notInitialized tab => "'" ++ tab ++ "' tab not found in the spreadsheet"

def evOf (l : List (Nat × Nat × String)) : List Ev :=
  l.map fun e => .write e.1 e.2.1 e.2.2

def hebrewHeader : String := "שם העובד"

/-- `GoogleSheetsService._initialize_dashboard`: guarded writes of the
employee numbers `1..70` into `A6:A75` and of the name header into `B5`
(the `format` and `freeze` calls are cosmetic and write no cell). -/
def init_dashboard (w : Worksheet) : Worksheet × List (Nat × Nat × String) :=
  let a6 := getCell w 6 1
  let (w1, l1) :=
    if a6 = "" ∨ a6 ≠ "1" then
      let writes := (List.range 70).map fun i => (6 + i, 1, natStr (i + 1))
      (applyWrites w writes, writes)
    else (w, [])
  let b5 := getCell w1 5 2
  let (w2, l2) :=
    if b5 = "" ∨ b5 ≠ hebrewHeader then
      (setCell w1 5 2 hebrewHeader, [(5, 2, hebrewHeader)])
    else (w1, [])
  (w2, l1 ++ l2)

/-- `sheet.add_worksheet(title=..., rows=100, cols=50)`: a fresh grid. -/
def freshWorksheet : Worksheet := ⟨fun _ _ => "", 100, 50⟩

/-- The spreadsheet: the month worksheets keyed by their names, and the
`Settings` roster tab (a list of records, each an association list of
column header to value; `none` when the tab is absent). -/
structure Spreadsheet where
  sheets : List (String × Worksheet)
  settingsTab : Option (List (List (String × String)))

def lookupSheet (st : Spreadsheet) (n : String) : Option Worksheet :=
  (st.sheets.find? fun e => e.1 = n).map (·.2)

def storeSheetAux : List (String × Worksheet) → String → Worksheet → List (String × Worksheet)
  | [], _, _ => []
  | e :: rest, n, w => if e.1 = n then (n, w) :: rest else e :: storeSheetAux rest n w

/-- Replace the (first) sheet named `n` by `w`. -/
def storeSheet (st : Spreadsheet) (n : String) (w : Worksheet) : Spreadsheet :=
  { st with sheets := storeSheetAux st.sheets n w }

/-- Append a newly created sheet. -/
def addSheet (st : Spreadsheet) (n : String) (w : Worksheet) : Spreadsheet :=
  { st with sheets := st.sheets ++ [(n, w)] }

structure MonthSheetResult where
  ws : Worksheet
  name : String
  created : Bool
  ranInit : Bool
  writes : List (Nat × Nat × String)

/-- `GoogleSheetsService.get_or_create_month_sheet`: look the month sheet
up by name; on a hit, read the sentinel cell `C2` and re-run
`_initialize_dashboard` unless it equals `"TOTAL TIP"`; on a miss, allocate
a fresh sheet and initialize it.  `ranInit` records whether
`_initialize_dashboard` was invoked. -/
def get_or_create_month_sheet (st : Spreadsheet) (d : Date) : MonthSheetResult :=
  let name := monthSheetName d
  match lookupSheet st name with
  | some w =>
    let c2 := getCell w 2 3
    if c2 = "" ∨ c2 ≠ "TOTAL TIP" then
      let p := init_dashboard w
      ⟨p.1, name, false, true, p.2⟩
    else ⟨w, name, false, false, []⟩
  | none =>
    let p := init_dashboard freshWorksheet
    ⟨p.1, name, true, true, p.2⟩

/-- Store the month worksheet back into the spreadsheet (a real call
mutates the worksheet in place; the embedding re-stores it). -/
def putSheet (ms : MonthSheetResult) (st : Spreadsheet) (w : Worksheet) : Spreadsheet :=
  if ms.created then addSheet st ms.name w else storeSheet st ms.name w

/-- The name comparison of `get_or_create_employee_row`:
`name.strip().lower() == employee_name.lower().strip()`. -/
def empMatch (stored query : String) : Bool :=
  pyLower (pyStrip stored) == pyStrip (pyLower query)

/-- The canonical form under which the engine compares employee names
(lower-cased, surrounding whitespace stripped). -/
def canon (s : String) : String := pyStrip (pyLower s)

/-- The row-scan predicate of `get_or_create_employee_row`:
`idx > 5 and name.strip().lower() == employee_name.lower().strip()`. -/
def empScanP (name : String) : Nat → String → Bool :=
  fun idx v => decide (5 < idx) && empMatch v name

/-- The header-scan predicate of `get_or_create_date_column`:
`idx >= 3 and header == date_formatted`. -/
def dateScanP (df : String) : Nat → String → Bool :=
  fun idx v => decide (3 ≤ idx) && (v == df)

/-- `GoogleSheetsService.get_or_create_employee_row`: scan column B below
the header block (`idx > 5`) for a case-insensitive, whitespace-trimmed
match; else append at `max(len+1, 6)`, failing when that row exceeds 75. -/
def get_or_create_employee_row (name : String) (w : Worksheet) :
    Except Err Nat × Worksheet × List (Nat × Nat × String) :=
  let colB := colValues w 2
  match scanRows (empScanP name) colB 1 with
  | some idx => (.ok idx, w, [])
  | none =>
    let nr0 := colB.length + 1
    let nr := if nr0 < 6 then 6 else nr0
    if nr > 75 then (.error .capacityExceeded, w, [])
    else (.ok nr, setCell w nr 2 name, [(nr, 2, name)])

/-- The cell writes `get_or_create_date_column` issues when allocating the
column pair (`hc`, `dc`) for the date headed `df`: the three label cells,
the `HOURS` header, the total-hours and rate formulas, the date header, and
the payout formulas for rows 6–70. -/
def dateColWrites (hc dc : Nat) (df : String) : List (Nat × Nat × String) :=
  let hl := col_index_to_letter hc
  let dl := col_index_to_letter dc
  [(2, hc, "TOTAL TIP"), (3, hc, "TOTAL HOURS"), (4, hc, "TIP PER HOUR"),
   (5, hc, "HOURS"),
   (3, dc, "=SUM(" ++ hl ++ "6:" ++ hl ++ "70)"),
   (4, dc, "=" ++ dl ++ "2/" ++ dl ++ "3"),
   (5, dc, df)] ++
  (List.range 65).map fun i =>
    (6 + i, dc, "=" ++ hl ++ natStr (6 + i) ++ "*$" ++ dl ++ "$4")

/-- `GoogleSheetsService.get_or_create_date_column`: scan row 5 from
column 3 for the formatted date; on a hit the hours column is the one
before it; on a miss allocate the two columns `max(len+1, 3)` and the next
one and emit the dashboard writes. -/
def get_or_create_date_column (d : Date) (w : Worksheet) :
    (Nat × Bool) × Worksheet × List (Nat × Nat × String) :=
  let df := formatDMY d
  let row5 := rowValues w 5
  match scanRows (dateScanP df) row5 1 with
  | some idx => ((idx - 1, false), w, [])
  | none =>
    let nc0 := row5.length + 1
    let nc := if nc0 < 3 then 3 else nc0
    let writes := dateColWrites nc (nc + 1) df
    ((nc, true), applyWrites w writes, writes)

/-- The hours-column index `submit_hours` resolves for date `d` on
worksheet `w` (the first component of `get_or_create_date_column`). -/
def resolveDateHoursCol (w : Worksheet) (d : Date) : Nat :=
  (get_or_create_date_column d w).1.1

/-- The employee row `submit_hours` resolves for `name` on worksheet `w`
(the first component of `get_or_create_employee_row`). -/
def resolveEmployeeRowIdx (w : Worksheet) (name : String) : Except Err Nat :=
  (get_or_create_employee_row name w).1

structure SubmitOutcome where
  row : Nat
  hoursCol : Nat
  dateColumnCreated : Bool
deriving DecidableEq, Repr

/-- `GoogleSheetsService.submit_hours`: resolve the month sheet, the date
column pair and the employee row, then read the target cell; if its value
is truthy and strips to non-empty, raise the duplicate-entry error;
otherwise write the hours. -/
def submit_hours (st : Spreadsheet) (name : String) (d : Date) (hours : ℚ) :
    Except Err SubmitOutcome × Spreadsheet × List Ev :=
  let ms := get_or_create_month_sheet st d
  let ev1 : List Ev :=
    (if ms.created then [.addWorksheet ms.name 100 50] else []) ++ evOf ms.writes
  let dcr := get_or_create_date_column d ms.ws
  let hc := dcr.1.1
  let colCreated := dcr.1.2
  let err := get_or_create_employee_row name dcr.2.1
  match err.1 with
  | .error e => (.error e, putSheet ms st err.2.1, ev1 ++ evOf dcr.2.2 ++ evOf err.2.2)
  | .ok row =>
    let w3 := err.2.1
    let existing := getCell w3 row hc
    if existing ≠ "" ∧ pyStrip existing ≠ "" then
      (.error (.duplicateEntry name (formatDMY d)), putSheet ms st w3,
        ev1 ++ evOf dcr.2.2 ++ evOf err.2.2)
    else
      (.ok ⟨row, hc, colCreated⟩, putSheet ms st (setCell w3 row hc (numCell hours)),
        ev1 ++ evOf dcr.2.2 ++ evOf err.2.2 ++ [.write row hc (numCell hours)])

/-- `sum(1 for idx, name in enumerate(col_b, start=1) if idx > 5 and name.strip())`. -/
def countEmployees : List String → Nat → Nat
  | [], _ => 0
  | v :: rest, idx =>
    (if 5 < idx ∧ pyStrip v ≠ "" then 1 else 0) + countEmployees rest (idx + 1)

/-- `GoogleSheetsService.submit_daily_tips`: resolve the month sheet and
the date column pair, write the tip total into row 2 of the date (value)
column unconditionally, and count the named employee rows. -/
def submit_daily_tips (st : Spreadsheet) (d : Date) (totalTips : ℚ) :
    Nat × Spreadsheet × List Ev :=
  let ms := get_or_create_month_sheet st d
  let ev1 : List Ev :=
    (if ms.created then [.addWorksheet ms.name 100 50] else []) ++ evOf ms.writes
  let dcr := get_or_create_date_column d ms.ws
  let hc := dcr.1.1
  let dc := hc + 1
  let w3 := setCell dcr.2.1 2 dc (numCell totalTips)
  let cnt := countEmployees (colValues w3 2) 1
  (cnt, putSheet ms st w3, ev1 ++ evOf dcr.2.2 ++ [.write 2 dc (numCell totalTips)])

/-! ## The roster (Settings tab) -/

def settingsTabName : String := "Settings"

def recGet (rec : List (String × String)) (k : String) : String :=
  match rec.find? fun e => e.1 = k with
  | some e => e.2
  | none => ""

/-- Python `a or b or ... or ""`: the first truthy (non-empty) value. -/
def firstTruthy : List String → String
  | [] => ""
  | v :: rest => if v ≠ "" then v else firstTruthy rest

structure EmployeeEntry where
  name : String
  pin : String
deriving DecidableEq, Repr

/-- `GoogleSheetsService.get_employee_settings`: read the roster records,
accept the header spellings `Name`/`name`/`Employee Name`/`employee name`
and `PIN`/`pin`/`Pin`, strip both fields, and keep the records where both
are non-empty.  A missing `Settings` tab raises. -/
def get_employee_settings (st : Spreadsheet) : Except Err (List EmployeeEntry) :=
  match st.settingsTab with
  | none => .error (.notInitialized settingsTabName)
  | some records =>
    .ok <| records.filterMap fun rec =>
      let name := pyStrip (firstTruthy
        [recGet rec "Name", recGet rec "name", recGet rec "Employee Name",
         recGet rec "employee name"])
      let pin := pyStrip (firstTruthy [recGet rec "PIN", recGet rec "pin", recGet rec "Pin"])
      if name ≠ "" ∧ pin ≠ "" then some ⟨name, pin⟩ else none

/-- `GoogleSheetsService.verify_employee_pin`: compare the name
case-insensitively and the PIN exactly — but catch **every** exception and
return `False` (`except Exception: return False`). -/
def verify_employee_pin (st : Spreadsheet) (name pin : String) : Bool :=
  match get_employee_settings st with
  | .error _ => false
  | .ok emps => emps.any fun e => pyLower e.name == pyLower name && e.pin == pin

/-! ## Reference formulas from the spec (for claim C2)

The spec's reference definitions for the aggregate formulas: the
total-hours sum is to span the full employee row range (all 70 allocatable
employee rows, i.e. rows 6–75), and the rate must define itself as 0 when
total-hours is 0 instead of propagating a division fault (the source
docstring itself states `D4==IF(D3>0, D2/D3, 0)`). -/

def specTotalHoursFormula (hl : String) : String := "=SUM(" ++ hl ++ "6:" ++ hl ++ "75)"

def docstringRateFormula : String := "=IF(D3>0, D2/D3, 0)"

/-! ## Reachable engine states (for claim C10)

States reachable through the engine's own operations, starting from a
store with no month sheets.  Employee names in submissions are non-empty
strings: the API layer's request model enforces `min_length=1` on
`employee_name` and `/submit-hours` additionally requires the name to
match a roster entry before calling `submit_hours`. -/

inductive Reach : Spreadsheet → Prop where
  | init (settings : Option (List (List (String × String)))) : Reach ⟨[], settings⟩
  | submitH {st : Spreadsheet} (h : Reach st) (name : String) (hn : name ≠ "")
      (d : Date) (q : ℚ) : Reach (submit_hours st name d q).2.1
  | submitT {st : Spreadsheet} (h : Reach st) (d : Date) (q : ℚ) :
      Reach (submit_daily_tips st d q).2.1

/-! ## Further model definitions used by the proofs -/

/-- The value the last write to `(r, c)` in the batch left behind, if any
(later entries in the batch win). -/
def lookupWrite : List (Nat × Nat × String) → Nat → Nat → Option String
  | [], _, _ => none
  | e :: rest, r, c =>
    (lookupWrite rest r c).or (if e.1 = r ∧ e.2.1 = c then some e.2.2 else none)

/-- The value of cell `(r, c)` of the sheet named `n` in the store (empty
when the sheet is absent). -/
def sheetCell (st : Spreadsheet) (n : String) (r c : Nat) : String :=
  match lookupSheet st n with
  | some w => getCell w r c
  | none => ""

/-- The structural invariant every worksheet reachable through the
engine's own operations satisfies: support inside the scan bounds, the
`A6`/`B5` initialization markers, alternating `HOURS`/date headers in the
allocated (even-length) header row, nothing beyond the allocated columns,
names filled in contiguously, and hours values only in rows that carry an
employee name. -/
structure WsInv (w : Worksheet) : Prop where
  bounded : WsBounded w
  a6 : getCell w 6 1 = "1"
  b5 : getCell w 5 2 = hebrewHeader
  len5_even : (rowValues w 5).length % 2 = 0
  hoursHdr : ∀ c, 3 ≤ c → c ≤ (rowValues w 5).length → c % 2 = 1 → getCell w 5 c = "HOURS"
  colsBound : ∀ r c, (rowValues w 5).length < c → getCell w r c = ""
  namesFilled : ∀ r, 6 ≤ r → r ≤ (colValues w 2).length → getCell w r 2 ≠ ""
  hoursNeedName : ∀ r c, 6 ≤ r → getCell w 5 c = "HOURS" → getCell w r c ≠ "" →
    getCell w r 2 ≠ ""

/-- Every month worksheet in the store satisfies the invariant. -/
def SpInv (st : Spreadsheet) : Prop := ∀ e ∈ st.sheets, WsInv e.2

/-! ## Lemmas: column letters (claim C9) -/

theorem char_toNat_ofNat (n : Nat) (h : n.isValidChar) : (Char.ofNat n).toNat = n := by
  simp [Char.ofNat, h, Char.ofNatAux, Char.toNat, UInt32.toNat, BitVec.toNat_ofNatLt]

theorem colLettersAux_zero (fuel : Nat) : colLettersAux fuel 0 = [] := by
  cases fuel <;> rfl

theorem colLettersAux_fuel (fuel fuel' n : Nat) (h : n ≤ fuel) (h' : n ≤ fuel') :
    colLettersAux fuel n = colLettersAux fuel' n := by
  induction n using Nat.strong_induction_on generalizing fuel fuel' with
  | _ n ih =>
    match n, fuel, fuel' with
    | 0, f, f' => rw [colLettersAux_zero, colLettersAux_zero]
    | m + 1, f + 1, f' + 1 =>
      show colLettersAux f (m / 26) ++ _ = colLettersAux f' (m / 26) ++ _
      have hdiv : m / 26 < m + 1 := by
        have := Nat.div_le_self m 26
        omega
      rw [ih (m / 26) hdiv f f' (by omega) (by omega)]

theorem colLetters_succ (n : Nat) :
    colLetters (n + 1) = colLetters (n / 26) ++ [Char.ofNat (n % 26 + 65)] := by
  show colLettersAux (n + 1) (n + 1) = colLettersAux (n / 26) (n / 26) ++ _
  show colLettersAux n (n / 26) ++ _ = _
  rw [colLettersAux_fuel n (n / 26) (n / 26) (Nat.div_le_self n 26) le_rfl]

theorem letterVal_ofNat (m : Nat) (h : m < 26) :
    letterVal (Char.ofNat (m + 65)) = m + 1 := by
  have hv : (m + 65).isValidChar := Or.inl (by omega)
  have := char_toNat_ofNat (m + 65) hv
  simp [letterVal, this]

theorem letter_to_index_colLetters (n : Nat) :
    (colLetters n).foldl (fun a c => a * 26 + letterVal c) 0 = n := by
  induction n using Nat.strong_induction_on with
  | _ n ih =>
    match n with
    | 0 => rfl
    | m + 1 =>
      rw [colLetters_succ, List.foldl_append]
      have hdiv : m / 26 < m + 1 := by
        have := Nat.div_le_self m 26
        omega
      rw [ih (m / 26) hdiv]
      show m / 26 * 26 + letterVal (Char.ofNat (m % 26 + 65)) = m + 1
      rw [letterVal_ofNat _ (Nat.mod_lt _ (by omega))]
      have := Nat.div_add_mod m 26
      omega

theorem letter_roundtrip (n : Nat) : letter_to_index (col_index_to_letter n) = n :=
  letter_to_index_colLetters n

/-- C9: the column-index-to-letter mapping is injective on positive
indices (hence a bijection onto its image of base-26 letter strings with no
zero digit), with `letter_to_index` as a left inverse on all indices, and
it takes the pinned values 1 ↦ A, 26 ↦ Z, 27 ↦ AA, 703 ↦ AAA. -/
theorem col_letter_bijection :
    (∀ a b : Nat, 0 < a → 0 < b →
        col_index_to_letter a = col_index_to_letter b → a = b) ∧
    (∀ n : Nat, letter_to_index (col_index_to_letter n) = n) ∧
    col_index_to_letter 1 = "A" ∧ col_index_to_letter 26 = "Z" ∧
    col_index_to_letter 27 = "AA" ∧ col_index_to_letter 703 = "AAA" := by
  refine ⟨?_, letter_roundtrip, by decide, by decide, by decide, by decide⟩
  intro a b _ _ h
  have ha := letter_roundtrip a
  have hb := letter_roundtrip b
  rw [h] at ha
  omega

theorem col_letter_bijection_witness : (27 : Nat) = 27 ∧ 0 < 27 :=
  ⟨col_letter_bijection.1 27 27 (by decide) (by decide) rfl, by decide⟩

/-! ## Lemmas: period calculator (claim C3) -/

/-- C3 counterexample: for the January 2026 date pinned by the spec, at one
time unit past midnight on the cutoff day 2026-02-02 the code reports the
period closed, although the cutoff day is not strictly after the cutoff day
(`dateLtB` is false), so the claim's calendar-day-only rule says open.
Time-of-day on the cutoff day is not ignored by `is_month_closed`. -/
theorem is_month_closed_cutoff_day_counterexample :
    is_month_closed ⟨2026, 1, 15⟩ ⟨⟨2026, 2, 2⟩, 1⟩ = true ∧
    dateLtB (cutoffDate ⟨2026, 1, 15⟩) ⟨2026, 2, 2⟩ = false := by
  decide

/-- C3 amended: `is_month_closed` reports the period of `d` closed exactly
when `now` is strictly after **midnight at the start of** the 2nd day of
the month following `d`'s month: every day after the cutoff day is closed,
every day before it is open, and the cutoff day itself is open only at the
exact midnight instant (any positive time of day on it is closed).
December wraps to January 2nd of the following year. -/
theorem is_month_closed_amended :
    (∀ (d : Date) (now : DateTime),
        is_month_closed d now = true ↔
          (dateLtB (cutoffDate d) now.date = true ∨
            (now.date = cutoffDate d ∧ 0 < now.tod))) ∧
    cutoffDate ⟨2026, 1, 15⟩ = ⟨2026, 2, 2⟩ ∧
    cutoffDate ⟨2026, 12, 25⟩ = ⟨2027, 1, 2⟩ ∧
    is_month_closed ⟨2026, 1, 15⟩ ⟨⟨2026, 2, 2⟩, 0⟩ = false ∧
    is_month_closed ⟨2026, 1, 15⟩ ⟨⟨2026, 2, 1⟩, 86399999999⟩ = false ∧
    is_month_closed ⟨2026, 1, 15⟩ ⟨⟨2026, 2, 3⟩, 0⟩ = true := by
  refine ⟨?_, by decide, by decide, by decide, by decide, by decide⟩
  intro d now
  simp [is_month_closed, dtAfterMidnightOf]

/-! ## Lemmas: shift duration calculator (claim C5) -/

theorem roundHalfEven_le (q : ℚ) (b : ℤ) (h : q ≤ b) : roundHalfEven q ≤ b := by
  have hfb : ⌊q⌋ ≤ b := by
    have := Int.floor_le_floor h
    simpa using this
  have hfl : (⌊q⌋ : ℚ) ≤ q := Int.floor_le q
  unfold roundHalfEven
  split_ifs with h1 h2 h3
  · exact hfb
  · have hlt : (⌊q⌋ : ℚ) < (b : ℚ) := by
      have : (⌊q⌋ : ℚ) + 1/2 < q := by linarith
      linarith
    have : ⌊q⌋ < b := by exact_mod_cast hlt
    omega
  · exact hfb
  · have heq : (1 : ℚ)/2 ≤ q - ⌊q⌋ := le_of_not_lt h1
    have hlt : (⌊q⌋ : ℚ) < (b : ℚ) := by linarith
    have : ⌊q⌋ < b := by exact_mod_cast hlt
    omega

theorem le_roundHalfEven (q : ℚ) (b : ℤ) (h : (b : ℚ) ≤ q) : b ≤ roundHalfEven q := by
  have hfb : b ≤ ⌊q⌋ := Int.le_floor.mpr h
  unfold roundHalfEven
  split_ifs <;> omega

theorem roundedHours_bounds (d : ℤ) (h1 : 1 ≤ d) (h2 : d ≤ 1440) :
    0 ≤ roundedHours d ∧ roundedHours d ≤ 24 := by
  set q : ℚ := (d : ℚ) * 100 / 60 with hq
  have hq0 : (0 : ℚ) ≤ q := by
    rw [hq]
    have : (0 : ℚ) ≤ (d : ℚ) := by exact_mod_cast (by omega : (0:ℤ) ≤ d)
    positivity
  have hq24 : q ≤ 2400 := by
    rw [hq]
    have hd : (d : ℚ) ≤ 1440 := by exact_mod_cast h2
    linarith
  have hr0 : (0 : ℤ) ≤ roundHalfEven q := le_roundHalfEven q 0 (by exact_mod_cast hq0)
  have hr24 : roundHalfEven q ≤ 2400 := roundHalfEven_le q 2400 (by exact_mod_cast hq24)
  unfold roundedHours
  constructor
  · have : (0 : ℚ) ≤ (roundHalfEven q : ℚ) := by exact_mod_cast hr0
    positivity
  · have : (roundHalfEven q : ℚ) ≤ 2400 := by exact_mod_cast hr24
    linarith

/-- C5: for every valid wall-clock pair, `calculate_hours` is non-negative
and at most 24; when the end is numerically at or before the start, 24
hours are added (so equal start and end yield exactly 24.00, not 0.00); and
the pinned values 09:00–17:00 ↦ 8.00, 23:00–02:00 ↦ 3.00,
09:00–09:01 ↦ 0.02 hold. -/
theorem calculate_hours_spec :
    (∀ (s e : String) (sh sm eh em : Nat) (v : ℚ),
        parseTime s = some (sh, sm) → sh < 24 → sm < 60 →
        parseTime e = some (eh, em) → eh < 24 → em < 60 →
        calculate_hours s e = some v → 0 ≤ v ∧ v ≤ 24) ∧
    (∀ (t : String) (h m : Nat), parseTime t = some (h, m) →
        calculate_hours t t = some 24) ∧
    calculate_hours "09:00" "17:00" = some 8 ∧
    calculate_hours "23:00" "02:00" = some 3 ∧
    calculate_hours "09:00" "09:01" = some (1/50) := by
  refine ⟨?_, ?_, ?_, ?_, ?_⟩
  · intro s e sh sm eh em v hs hsh hsm he heh hem hv
    simp only [calculate_hours, hs, he, Option.some.injEq] at hv
    have hb := roundedHours_bounds (shiftMinutes (sh * 60 + sm) (eh * 60 + em))
      (by unfold shiftMinutes; split <;> omega)
      (by unfold shiftMinutes; split <;> omega)
    rw [← hv]
    exact hb
  · intro t h m ht
    simp only [calculate_hours, ht, Option.some.injEq]
    have hsm : shiftMinutes (h * 60 + m) (h * 60 + m) = 1440 := by
      unfold shiftMinutes
      simp
    rw [hsm]
    unfold roundedHours roundHalfEven
    norm_num
  · have hps : parseTime "09:00" = some (9, 0) := by decide
    have hpe : parseTime "17:00" = some (17, 0) := by decide
    simp only [calculate_hours, hps, hpe, Option.some.injEq]
    have hsm : shiftMinutes ((9 : ℕ) * 60 + (0 : ℕ)) ((17 : ℕ) * 60 + (0 : ℕ)) = 480 := by
      unfold shiftMinutes; norm_num
    rw [hsm]
    unfold roundedHours roundHalfEven
    norm_num
  · have hps : parseTime "23:00" = some (23, 0) := by decide
    have hpe : parseTime "02:00" = some (2, 0) := by decide
    simp only [calculate_hours, hps, hpe, Option.some.injEq]
    have hsm : shiftMinutes ((23 : ℕ) * 60 + (0 : ℕ)) ((2 : ℕ) * 60 + (0 : ℕ)) = 180 := by
      unfold shiftMinutes; norm_num
    rw [hsm]
    unfold roundedHours roundHalfEven
    norm_num
  · have hps : parseTime "09:00" = some (9, 0) := by decide
    have hpe : parseTime "09:01" = some (9, 1) := by decide
    simp only [calculate_hours, hps, hpe, Option.some.injEq]
    have hsm : shiftMinutes ((9 : ℕ) * 60 + (0 : ℕ)) ((9 : ℕ) * 60 + (1 : ℕ)) = 1 := by
      unfold shiftMinutes; norm_num
    rw [hsm]
    unfold roundedHours roundHalfEven
    have hfl : ⌊(1 : ℤ) * 100 / (60 : ℚ)⌋ = 1 := by
      norm_num [Int.floor_eq_iff]
    norm_num [hfl]

theorem calculate_hours_spec_witness :
    parseTime "10:00" = some (10, 0) ∧ calculate_hours "10:00" "10:00" = some 24 :=
  ⟨by decide, calculate_hours_spec.2.1 "10:00" 10 0 (by decide)⟩

/-! ## Lemmas: dashboard formula generation (claim C2) -/

/-- C2: evaluating a fresh date-column allocation shows the emitted
formulas diverge from the specified (and docstring-stated) reference
definitions.  On a newly created and initialized month sheet, the first
date pair occupies columns 3 (hours, `C`) and 4 (values, `D`); the engine
emits `=SUM(C6:C70)` for total hours and payout formulas only for rows
6–70, although the employee row range runs to row 75 (the initializer
numbers employees 1–70 in `A6:A75`, and `A75` holds `"70"`), so employee
rows 71–75 are excluded from the aggregates; and it emits the bare
division `=D2/D3` for the rate, not the zero-guarded
`=IF(D3>0, D2/D3, 0)` its own docstring specifies, so a zero total
propagates a division fault.  (The payout formulas do absolute-reference
the rate cell, `$D$4`, as claimed.) -/
theorem dashboard_formulas_code_bug :
    (let w0 := (init_dashboard freshWorksheet).1
     let r := get_or_create_date_column ⟨2026, 2, 3⟩ w0
     r.1 = (3, true) ∧
     getCell r.2.1 3 4 = "=SUM(C6:C70)" ∧
     getCell r.2.1 3 4 ≠ specTotalHoursFormula "C" ∧
     getCell r.2.1 4 4 = "=D2/D3" ∧
     getCell r.2.1 4 4 ≠ docstringRateFormula ∧
     getCell r.2.1 6 4 = "=C6*$D$4" ∧
     getCell r.2.1 70 4 = "=C70*$D$4" ∧
     getCell r.2.1 71 4 = "" ∧
     getCell r.2.1 75 4 = "" ∧
     getCell w0 75 1 = "70") := by
  set_option maxRecDepth 10000 in decide

/-! ## Lemmas: month sheet sentinel (claim C6) -/

/-- C6: `_initialize_dashboard` never writes the sentinel value the lookup
checks.  After a month sheet is created and initialized, its sentinel cell
`C2` is still empty (only the first date-column allocation ever writes
`TOTAL TIP` there), so an immediately subsequent lookup of the same sheet
finds `C2 ≠ "TOTAL TIP"` and re-runs `_initialize_dashboard` instead of
detecting "already initialized" from the sentinel read. -/
theorem month_sheet_sentinel_code_bug :
    (let d : Date := ⟨2026, 2, 3⟩
     let ms := get_or_create_month_sheet ⟨[], none⟩ d
     ms.created = true ∧ ms.ranInit = true ∧
     getCell ms.ws 2 3 = "" ∧
     getCell ms.ws 6 1 = "1" ∧ getCell ms.ws 5 2 = hebrewHeader ∧
     (get_or_create_month_sheet (addSheet ⟨[], none⟩ ms.name ms.ws) d).ranInit = true ∧
     (get_or_create_month_sheet (addSheet ⟨[], none⟩ ms.name ms.ws) d).created = false) := by
  set_option maxRecDepth 10000 in decide

/-! ## Lemmas: employee row capacity (claim C7) -/

/-- C7: `get_or_create_employee_row` fails with the capacity error exactly
when the employee is not already present and the next free row
(`max(len+1, 6)`) lies past row 75 — i.e. the fixed bound of 70 employee
rows (rows 6–75) is exhausted; the error message states the configured
bound 70; and an allocation, when one happens, always lands in rows 6–75,
never beyond the bound. -/
theorem employee_row_capacity :
    (∀ (w : Worksheet) (name : String),
        (get_or_create_employee_row name w).1 = .error .capacityExceeded ↔
          (scanRows (empScanP name) (colValues w 2) 1
              = none ∧
            75 < (if (colValues w 2).length + 1 < 6 then 6 else (colValues w 2).length + 1))) ∧
    (∀ (w : Worksheet) (name : String),
        (get_or_create_employee_row name w).2.2 = [] ∨
          ∃ r, (get_or_create_employee_row name w).2.2 = [(r, 2, name)] ∧ 6 ≤ r ∧ r ≤ 75) ∧
    errMessage .capacityExceeded = "Maximum number of employees (70) reached" ∧
    ['7', '0'] <:+: (errMessage .capacityExceeded).data ∧
    (get_or_create_employee_row "Jane" (setCell freshWorksheet 75 2 "x")).1
      = .error .capacityExceeded := by
  refine ⟨?_, ?_, rfl, by decide, by set_option maxRecDepth 10000 in rfl⟩
  · intro w name
    cases hscan : scanRows (empScanP name) (colValues w 2) 1 with
    | some idx => simp [get_or_create_employee_row, hscan]
    | none =>
      simp only [get_or_create_employee_row, hscan]
      split <;> split <;> rename_i h <;> simp [h]
  · intro w name
    cases hscan : scanRows (empScanP name) (colValues w 2) 1 with
    | some idx => simp [get_or_create_employee_row, hscan]
    | none =>
      simp only [get_or_create_employee_row, hscan]
      split
      · split
        · exact Or.inl rfl
        · exact Or.inr ⟨6, rfl, by omega, by omega⟩
      · rename_i h1
        split
        · exact Or.inl rfl
        · rename_i h2
          exact Or.inr ⟨(colValues w 2).length + 1, rfl, by omega, by omega⟩

/-! ## Lemmas: missing roster tab (claim C8) -/

/-- C8 counterexample: with the `Settings` tab absent, reading the roster
does raise the NotInitialized error, but `verify_employee_pin` catches
every exception and returns `False`: PIN verification yields an ordinary
negative (invalid-credentials) result instead of surfacing the fatal
error. -/
theorem verify_pin_missing_roster_counterexample :
    get_employee_settings ⟨[], none⟩ = .error (.notInitialized settingsTabName) ∧
    verify_employee_pin ⟨[], none⟩ "John Doe" "1234" = false :=
  ⟨rfl, rfl⟩

/-- C8 amended: when the roster tab is absent, `get_employee_settings`
fails with the NotInitialized error (message naming the `Settings` tab),
but `verify_employee_pin` swallows the error (`except Exception: return
False`) and reports plain verification failure, indistinguishable from
wrong credentials, for every name and PIN. -/
theorem verify_pin_missing_roster_amended :
    (∀ st : Spreadsheet, st.settingsTab = none →
        get_employee_settings st = .error (.notInitialized settingsTabName)) ∧
    (∀ (st : Spreadsheet) (n p : String), st.settingsTab = none →
        verify_employee_pin st n p = false) ∧
    errMessage (.notInitialized settingsTabName) =
      "'Settings' tab not found in the spreadsheet" := by
  refine ⟨?_, ?_, rfl⟩
  · intro st h
    unfold get_employee_settings
    rw [h]
  · intro st n p h
    unfold verify_employee_pin get_employee_settings
    rw [h]

theorem verify_pin_missing_roster_amended_witness :
    (⟨[], none⟩ : Spreadsheet).settingsTab = none ∧
    verify_employee_pin ⟨[], none⟩ "Jane" "0000" = false :=
  ⟨rfl, verify_pin_missing_roster_amended.2.1 ⟨[], none⟩ "Jane" "0000" rfl⟩

/-! ## Generic lemmas: trimmed lines -/

theorem dte_cons (v : String) (rest : List String) :
    dropTrailingEmpty (v :: rest) =
      if dropTrailingEmpty rest = [] ∧ v = "" then [] else v :: dropTrailingEmpty rest :=
  rfl

theorem dte_length_le (l : List String) : (dropTrailingEmpty l).length ≤ l.length := by
  induction l with
  | nil => simp [dropTrailingEmpty]
  | cons v rest ih =>
    rw [dte_cons]
    split
    · simp
    · simpa using ih

theorem dte_getD (l : List String) (i : Nat) (h : i < (dropTrailingEmpty l).length) :
    (dropTrailingEmpty l).getD i "" = l.getD i "" := by
  induction l generalizing i with
  | nil => simp [dropTrailingEmpty] at h
  | cons v rest ih =>
    rw [dte_cons] at h ⊢
    split at h
    · simp at h
    · rename_i hc
      rw [if_neg hc]
      cases i with
      | zero => simp
      | succ j =>
        have hj : j < (dropTrailingEmpty rest).length := by simpa using h
        simpa using ih j hj

theorem dte_beyond (l : List String) (i : Nat) (h : (dropTrailingEmpty l).length ≤ i) :
    l.getD i "" = "" := by
  induction l generalizing i with
  | nil => simp
  | cons v rest ih =>
    rw [dte_cons] at h
    split at h
    · rename_i hc
      cases i with
      | zero => simpa using hc.2
      | succ j =>
        have : (dropTrailingEmpty rest).length ≤ j := by rw [hc.1]; simp
        simpa using ih j this
    · cases i with
      | zero => simp at h
      | succ j =>
        have : (dropTrailingEmpty rest).length ≤ j := by simpa using h
        simpa using ih j this

theorem dte_last (l : List String) (h : (dropTrailingEmpty l).length ≠ 0) :
    l.getD ((dropTrailingEmpty l).length - 1) "" ≠ "" := by
  induction l with
  | nil => simp [dropTrailingEmpty] at h
  | cons v rest ih =>
    rw [dte_cons] at h ⊢
    split at h
    · simp at h
    · rename_i hc
      rw [if_neg hc]
      cases hr : dropTrailingEmpty rest with
      | nil =>
        have hv : ¬(v = "") := fun hv => hc ⟨hr, hv⟩
        simpa using hv
      | cons x xs =>
        have hne : (dropTrailingEmpty rest).length ≠ 0 := by rw [hr]; simp
        have := ih hne
        rw [hr] at this
        simpa using this

theorem range_map_getD (f : Nat → String) (b i : Nat) :
    ((List.range b).map f).getD i "" = if i < b then f i else "" := by
  rw [List.getD_eq_getElem?_getD, List.getElem?_map]
  by_cases h : i < b
  · rw [List.getElem?_range h]
    simp [h]
  · rw [List.getElem?_eq_none (by simpa using h)]
    simp [h]

theorem lineVals_length_le (g : Nat → String) (b : Nat) : (lineVals g b).length ≤ b := by
  have := dte_length_le ((List.range b).map fun i => g (i + 1))
  simpa [lineVals] using this

theorem lineVals_getD (g : Nat → String) (b i : Nat) (h : i < (lineVals g b).length) :
    (lineVals g b).getD i "" = g (i + 1) := by
  have hb : i < b := lt_of_lt_of_le h (lineVals_length_le g b)
  unfold lineVals at h ⊢
  rw [dte_getD _ _ h, range_map_getD]
  simp [hb]

theorem lineVals_val_beyond (g : Nat → String) (b : Nat)
    (hg : ∀ k, b < k → g k = "") (k : Nat) (hk : 1 ≤ k)
    (h : (lineVals g b).length < k) : g k = "" := by
  by_cases hkb : k ≤ b
  · have := dte_beyond ((List.range b).map fun i => g (i + 1)) (k - 1)
      (by unfold lineVals at h; omega)
    rw [range_map_getD] at this
    have hlt : k - 1 < b := by omega
    simp only [hlt, if_true] at this
    have : g (k - 1 + 1) = "" := this
    simpa [Nat.sub_add_cancel hk] using this
  · exact hg k (by omega)

theorem lineVals_last (g : Nat → String) (b : Nat) (h : (lineVals g b).length ≠ 0) :
    g ((lineVals g b).length) ≠ "" := by
  unfold lineVals at h ⊢
  have := dte_last _ h
  rw [range_map_getD] at this
  have hlt : (dropTrailingEmpty ((List.range b).map fun i => g (i + 1))).length - 1 < b := by
    have := dte_length_le ((List.range b).map fun i => g (i + 1))
    simp at this
    omega
  simp only [hlt, if_true] at this
  have h1 : (dropTrailingEmpty ((List.range b).map fun i => g (i + 1))).length - 1 + 1 =
      (dropTrailingEmpty ((List.range b).map fun i => g (i + 1))).length := by omega
  rwa [h1] at this

theorem lineVals_length_eq (g : Nat → String) (b L : Nat) (hLb : L ≤ b)
    (hbeyond : ∀ k, L < k → g k = "") (hlast : L = 0 ∨ g L ≠ "") :
    (lineVals g b).length = L := by
  rcases lt_trichotomy ((lineVals g b).length) L with h | h | h
  · exfalso
    have hL0 : L ≠ 0 := by omega
    have hgL : g L ≠ "" := hlast.resolve_left hL0
    have hg : ∀ k, b < k → g k = "" := fun k hk => hbeyond k (by omega)
    exact hgL (lineVals_val_beyond g b hg L (by omega) (by omega))
  · exact h
  · exfalso
    have hne : (lineVals g b).length ≠ 0 := by omega
    exact (lineVals_last g b hne) (hbeyond _ h)

theorem lists_ext_getD (l l' : List String) (hlen : l.length = l'.length)
    (h : ∀ i, i < l.length → l.getD i "" = l'.getD i "") : l = l' := by
  apply List.ext_getElem hlen
  intro n h1 h2
  have := h n h1
  rwa [List.getD_eq_getElem _ _ h1, List.getD_eq_getElem _ _ h2] at this

theorem lineVals_ext (g g' : Nat → String) (b b' : Nat)
    (hgg : ∀ k, 1 ≤ k → g k = g' k)
    (hg : ∀ k, b < k → g k = "") (hg' : ∀ k, b' < k → g' k = "") :
    lineVals g b = lineVals g' b' := by
  have hlen : (lineVals g b).length = (lineVals g' b').length := by
    rw [lineVals_length_eq g' b' ((lineVals g b).length)]
    · by_contra hc
      push_neg at hc
      have h0 : (lineVals g b).length ≠ 0 := by omega
      have := lineVals_last g b h0
      rw [hgg _ (by omega)] at this
      exact this (hg' _ hc)
    · intro k hk
      rw [← hgg k (by omega)]
      exact lineVals_val_beyond g b hg k (by omega) hk
    · by_cases h0 : (lineVals g b).length = 0
      · exact Or.inl h0
      · exact Or.inr (by rw [← hgg _ (by omega)]; exact lineVals_last g b h0)
  apply lists_ext_getD _ _ hlen
  intro i hi
  rw [lineVals_getD g b i hi, lineVals_getD g' b' i (by omega), hgg (i + 1) (by omega)]

/-! ## Generic lemmas: scans -/

theorem scanRows_cons (p : Nat → String → Bool) (v : String) (rest : List String) (s : Nat) :
    scanRows p (v :: rest) s = if p s v then some s else scanRows p rest (s + 1) :=
  rfl

theorem scanRows_eq_none_iff (p : Nat → String → Bool) (l : List String) (s : Nat) :
    scanRows p l s = none ↔ ∀ i, i < l.length → p (s + i) (l.getD i "") = false := by
  induction l generalizing s with
  | nil =>
    rw [show scanRows p [] s = none from rfl]
    simp
  | cons v rest ih =>
    rw [scanRows_cons]
    cases hp : p s v with
    | true =>
      rw [if_pos rfl]
      constructor
      · intro h; simp at h
      · intro h
        have h0 := h 0 (by simp)
        simp [hp] at h0
    | false =>
      rw [if_neg (by simp)]
      rw [ih (s + 1)]
      constructor
      · intro h i hi
        cases i with
        | zero => simpa using hp
        | succ j =>
          have := h j (by simpa using hi)
          have harith : s + (j + 1) = s + 1 + j := by omega
          rw [harith]
          simpa using this
      · intro h j hj
        have := h (j + 1) (by simpa using hj)
        have harith : s + 1 + j = s + (j + 1) := by omega
        rw [harith]
        simpa using this

theorem scanRows_eq_some_iff (p : Nat → String → Bool) (l : List String) (s j : Nat) :
    scanRows p l s = some j ↔
      (s ≤ j ∧ j - s < l.length ∧ p j (l.getD (j - s) "") = true ∧
        ∀ k, s ≤ k → k < j → p k (l.getD (k - s) "") = false) := by
  induction l generalizing s with
  | nil =>
    rw [show scanRows p [] s = none from rfl]
    simp
  | cons v rest ih =>
    rw [scanRows_cons]
    cases hp : p s v with
    | true =>
      rw [if_pos rfl]
      constructor
      · intro h
        injection h with h
        subst h
        refine ⟨le_rfl, by simp, by simpa using hp, ?_⟩
        intro k h1 h2; omega
      · rintro ⟨h1, h2, h3, h4⟩
        by_cases hsj : s = j
        · rw [hsj]
        · have := h4 s le_rfl (by omega)
          simp at this
          rw [this] at hp
          cases hp
    | false =>
      rw [if_neg (by simp)]
      rw [ih (s + 1)]
      constructor
      · rintro ⟨h1, h2, h3, h4⟩
        refine ⟨by omega, by simp; omega, ?_, ?_⟩
        · have heq : j - s = (j - (s + 1)) + 1 := by omega
          rw [heq]
          simpa using h3
        · intro k hk1 hk2
          by_cases hks : k = s
          · subst hks
            have heq : k - k = 0 := by omega
            rw [heq]
            simpa using hp
          · have := h4 k (by omega) hk2
            have heq : k - s = (k - (s + 1)) + 1 := by omega
            rw [heq]
            simpa using this
      · rintro ⟨h1, h2, h3, h4⟩
        have hsj : s ≠ j := by
          intro he
          subst he
          simp at h3
          rw [h3] at hp
          cases hp
        refine ⟨by omega, by simp at h2; omega, ?_, ?_⟩
        · have heq : j - s = (j - (s + 1)) + 1 := by omega
          rw [heq] at h3
          simpa using h3
        · intro k hk1 hk2
          have := h4 k (by omega) hk2
          have heq : k - s = (k - (s + 1)) + 1 := by omega
          rw [heq] at this
          simpa using this

/-! ## Generic lemmas: cell writes -/

theorem getCell_setCell (w : Worksheet) (r c r' c' : Nat) (v : String) :
    getCell (setCell w r c v) r' c' = if r' = r ∧ c' = c then v else getCell w r' c' :=
  rfl

theorem lookupWrite_cons (e : Nat × Nat × String) (rest : List (Nat × Nat × String))
    (r c : Nat) :
    lookupWrite (e :: rest) r c =
      (lookupWrite rest r c).or (if e.1 = r ∧ e.2.1 = c then some e.2.2 else none) :=
  rfl

theorem applyWrites_getCell (l : List (Nat × Nat × String)) (w : Worksheet) (r c : Nat) :
    getCell (applyWrites w l) r c = (lookupWrite l r c).getD (getCell w r c) := by
  induction l generalizing w with
  | nil => rfl
  | cons e rest ih =>
    show getCell (applyWrites (setCell w e.1 e.2.1 e.2.2) rest) r c = _
    rw [ih, lookupWrite_cons]
    cases hl : lookupWrite rest r c with
    | some v => simp
    | none =>
      rw [Option.none_or, Option.getD_none, getCell_setCell]
      by_cases hrc : e.1 = r ∧ e.2.1 = c
      · rw [if_pos ⟨hrc.1.symm, hrc.2.symm⟩, if_pos hrc, Option.getD_some]
      · rw [if_neg (fun h => hrc ⟨h.1.symm, h.2.symm⟩), if_neg hrc, Option.getD_none]

theorem lookupWrite_eq_none (l : List (Nat × Nat × String)) (r c : Nat)
    (h : ∀ e ∈ l, ¬(e.1 = r ∧ e.2.1 = c)) : lookupWrite l r c = none := by
  induction l with
  | nil => rfl
  | cons e rest ih =>
    rw [lookupWrite_cons, ih (fun e he => h e (List.mem_cons_of_mem _ he)),
      if_neg (h e (List.mem_cons_self e rest)), Option.none_or]

theorem getCell_applyWrites_untouched (l : List (Nat × Nat × String)) (w : Worksheet)
    (r c : Nat) (h : ∀ e ∈ l, ¬(e.1 = r ∧ e.2.1 = c)) :
    getCell (applyWrites w l) r c = getCell w r c := by
  rw [applyWrites_getCell, lookupWrite_eq_none l r c h]
  rfl

theorem lookupWrite_append (l1 l2 : List (Nat × Nat × String)) (r c : Nat) :
    lookupWrite (l1 ++ l2) r c = (lookupWrite l2 r c).or (lookupWrite l1 r c) := by
  induction l1 with
  | nil =>
    rw [List.nil_append]
    cases lookupWrite l2 r c <;> rfl
  | cons e rest ih =>
    rw [List.cons_append, lookupWrite_cons, ih, lookupWrite_cons]
    cases lookupWrite l2 r c <;> cases lookupWrite rest r c <;> rfl

theorem lookupWrite_range_rows (n lo c0 : Nat) (g : Nat → String) (r c : Nat) :
    lookupWrite ((List.range n).map fun i => (lo + i, c0, g i)) r c =
      if lo ≤ r ∧ r < lo + n ∧ c = c0 then some (g (r - lo)) else none := by
  induction n with
  | zero =>
    rw [show lookupWrite ((List.range 0).map fun i => (lo + i, c0, g i)) r c = none from rfl]
    rw [if_neg (by omega)]
  | succ m ih =>
    rw [List.range_succ, List.map_append, lookupWrite_append]
    simp only [List.map_cons, List.map_nil]
    rw [show lookupWrite [(lo + m, c0, g m)] r c =
      (if lo + m = r ∧ c0 = c then some (g m) else none) from by
        rw [lookupWrite_cons]
        rfl]
    rw [ih]
    by_cases hm : lo + m = r ∧ c0 = c
    · rw [if_pos hm, Option.or_some,
        if_pos (⟨by omega, by omega, hm.2.symm⟩ : lo ≤ r ∧ r < lo + (m + 1) ∧ c = c0)]
      have hr : r - lo = m := by omega
      rw [hr]
    · rw [if_neg hm, Option.none_or]
      by_cases hin : lo ≤ r ∧ r < lo + m ∧ c = c0
      · rw [if_pos hin, if_pos ⟨hin.1, by omega, hin.2.2⟩]
      · rw [if_neg hin, if_neg ?_]
        rintro ⟨ha, hb, hc⟩
        have hne : ¬(lo + m = r) := fun he => hm ⟨he, hc.symm⟩
        exact hin ⟨ha, by omega, hc⟩

theorem applyWrites_rmax_le (l : List (Nat × Nat × String)) (w : Worksheet) :
    w.rmax ≤ (applyWrites w l).rmax ∧ w.cmax ≤ (applyWrites w l).cmax := by
  induction l generalizing w with
  | nil => exact ⟨le_rfl, le_rfl⟩
  | cons e rest ih =>
    have h := ih (setCell w e.1 e.2.1 e.2.2)
    exact ⟨le_trans (le_max_left _ _) h.1, le_trans (le_max_left _ _) h.2⟩

theorem setCell_bounded (w : Worksheet) (r c : Nat) (v : String) (h : WsBounded w) :
    WsBounded (setCell w r c v) := by
  intro r' c' hv
  show r' ≤ max w.rmax r ∧ c' ≤ max w.cmax c
  by_cases hrc : r' = r ∧ c' = c
  · omega
  · have hv' : w.cell r' c' ≠ "" := by
      have he : (setCell w r c v).cell r' c' = if r' = r ∧ c' = c then v else w.cell r' c' := rfl
      rw [he, if_neg hrc] at hv
      exact hv
    have := h r' c' hv'
    omega

theorem applyWrites_bounded (l : List (Nat × Nat × String)) (w : Worksheet)
    (h : WsBounded w) : WsBounded (applyWrites w l) := by
  induction l generalizing w with
  | nil => exact h
  | cons e rest ih => exact ih _ (setCell_bounded w e.1 e.2.1 e.2.2 h)

theorem rowValues_applyWrites_avoid (l : List (Nat × Nat × String)) (w : Worksheet)
    (r : Nat) (hb : WsBounded w) (h : ∀ e ∈ l, ¬(e.1 = r)) :
    rowValues (applyWrites w l) r = rowValues w r := by
  apply lineVals_ext
  · intro k _
    exact getCell_applyWrites_untouched l w r k (fun e he hc => h e he hc.1)
  · intro k hk
    by_contra hne
    have := (applyWrites_bounded l w hb) r k hne
    omega
  · intro k hk
    by_contra hne
    have := hb r k hne
    omega

theorem colValues_applyWrites_avoid (l : List (Nat × Nat × String)) (w : Worksheet)
    (c : Nat) (hb : WsBounded w) (h : ∀ e ∈ l, ¬(e.2.1 = c)) :
    colValues (applyWrites w l) c = colValues w c := by
  apply lineVals_ext
  · intro k _
    exact getCell_applyWrites_untouched l w k c (fun e he hc => h e he hc.2)
  · intro k hk
    by_contra hne
    have := (applyWrites_bounded l w hb) k c hne
    omega
  · intro k hk
    by_contra hne
    have := hb k c hne
    omega

theorem applyWrites_singleton (w : Worksheet) (r c : Nat) (v : String) :
    applyWrites w [(r, c, v)] = setCell w r c v :=
  rfl

/-! ## Generic lemmas: Python strings -/

theorem char_ne_of_toNat (c c' : Char) (h : c.toNat ≠ c'.toNat) : c ≠ c' :=
  fun he => h (he ▸ rfl)

theorem char_le_iff_toNat (a b : Char) : a ≤ b ↔ a.toNat ≤ b.toNat := by
  rw [Char.le_def, UInt32.le_def, BitVec.le_def]
  exact Iff.rfl

theorem mk_eq_empty_iff (l : List Char) : String.mk l = "" ↔ l = [] := by
  constructor
  · intro h
    have := congrArg String.data h
    simpa using this
  · intro h
    rw [h]

theorem pyStrip_all_space (s : String) (h : pyStrip s = "") :
    ∀ c ∈ s.data, pyIsSpace c = true := by
  intro c hc
  have hl : pyStripL s.data = [] := (mk_eq_empty_iff _).mp h
  unfold pyStripL at hl
  rw [List.reverse_eq_nil_iff] at hl
  have hdrop : ∀ x ∈ (s.data.dropWhile pyIsSpace).reverse, pyIsSpace x = true :=
    List.dropWhile_eq_nil_iff.mp hl
  have hdrop' : ∀ x ∈ s.data.dropWhile pyIsSpace, pyIsSpace x = true := by
    intro x hx
    exact hdrop x (List.mem_reverse.mpr hx)
  have hsplit := List.takeWhile_append_dropWhile pyIsSpace s.data
  rw [← hsplit] at hc
  rcases List.mem_append.mp hc with h1 | h2
  · exact List.mem_takeWhile_imp h1
  · exact hdrop' c h2

theorem pyStrip_ne_empty (s : String) (c : Char) (hc : c ∈ s.data)
    (hns : pyIsSpace c = false) : pyStrip s ≠ "" := by
  intro h
  have := pyStrip_all_space s h c hc
  rw [hns] at this
  cases this

theorem pyIsSpace_eq_false (c : Char) (h9 : c.toNat ≠ 9) (h10 : c.toNat ≠ 10)
    (h11 : c.toNat ≠ 11) (h12 : c.toNat ≠ 12) (h13 : c.toNat ≠ 13)
    (h32 : c.toNat ≠ 32) : pyIsSpace c = false := by
  simp only [pyIsSpace, Bool.or_eq_false_iff, decide_eq_false_iff_not]
  exact ⟨⟨⟨⟨⟨char_ne_of_toNat _ _ h32, char_ne_of_toNat _ _ h9⟩,
    char_ne_of_toNat _ _ h10⟩, char_ne_of_toNat _ _ h13⟩,
    char_ne_of_toNat _ _ h11⟩, char_ne_of_toNat _ _ h12⟩

theorem pyIsSpace_lowerChar (c : Char) : pyIsSpace (pyLowerChar c) = pyIsSpace c := by
  unfold pyLowerChar
  split
  · rename_i h
    rw [Bool.and_eq_true, decide_eq_true_iff, decide_eq_true_iff] at h
    have h1 : 65 ≤ c.toNat := (char_le_iff_toNat 'A' c).mp h.1
    have h2 : c.toNat ≤ 90 := (char_le_iff_toNat c 'Z').mp h.2
    have hv : (c.toNat + 32).isValidChar := Or.inl (by omega)
    have ht : (Char.ofNat (c.toNat + 32)).toNat = c.toNat + 32 := char_toNat_ofNat _ hv
    rw [pyIsSpace_eq_false (Char.ofNat (c.toNat + 32)) (by omega) (by omega) (by omega)
      (by omega) (by omega) (by omega),
      pyIsSpace_eq_false c (by omega) (by omega) (by omega) (by omega) (by omega) (by omega)]
  · rfl

theorem pyStripL_map_lower (l : List Char) :
    pyStripL (l.map pyLowerChar) = (pyStripL l).map pyLowerChar := by
  unfold pyStripL
  have hps : (pyIsSpace ∘ pyLowerChar) = pyIsSpace := funext fun c => pyIsSpace_lowerChar c
  rw [List.dropWhile_map, hps, ← List.map_reverse, List.dropWhile_map, hps, ← List.map_reverse]

theorem strip_lower_comm (s : String) : pyStrip (pyLower s) = pyLower (pyStrip s) :=
  congrArg String.mk (pyStripL_map_lower s.data)

theorem empMatch_canon (v q : String) : empMatch v q = (canon v == canon q) := by
  unfold empMatch canon
  simp only [strip_lower_comm]

theorem digit_not_space (x : Nat) (h : x < 10) :
    pyIsSpace (Char.ofNat (48 + x)) = false := by
  have hv : (48 + x).isValidChar := Or.inl (by omega)
  have ht : (Char.ofNat (48 + x)).toNat = 48 + x := char_toNat_ofNat _ hv
  exact pyIsSpace_eq_false _ (by omega) (by omega) (by omega) (by omega) (by omega) (by omega)

theorem natDigs_succ (m : Nat) :
    natDigs (m + 1) = natDigsAux m ((m + 1) / 10) ++ [Char.ofNat (48 + (m + 1) % 10)] :=
  rfl

theorem natStr_exists_nonspace (n : Nat) :
    ∃ c ∈ (natStr n).data, pyIsSpace c = false := by
  cases n with
  | zero => exact ⟨'0', by decide, by decide⟩
  | succ m =>
    refine ⟨Char.ofNat (48 + (m + 1) % 10), ?_, digit_not_space _ (Nat.mod_lt _ (by omega))⟩
    rw [show natStr (m + 1) = String.mk (natDigs (m + 1)) from by
      unfold natStr
      rw [if_neg (Nat.succ_ne_zero m)]]
    show _ ∈ natDigs (m + 1)
    rw [natDigs_succ]
    exact List.mem_append_right _ (List.mem_singleton.mpr rfl)

theorem intStr_exists_nonspace (i : ℤ) :
    ∃ c ∈ (intStr i).data, pyIsSpace c = false := by
  unfold intStr
  split
  · refine ⟨'-', ?_, by decide⟩
    rw [String.data_append]
    exact List.mem_append_left _ (by decide)
  · exact natStr_exists_nonspace _

theorem numCell_strip_ne (q : ℚ) : pyStrip (numCell q) ≠ "" := by
  unfold numCell
  split
  · obtain ⟨c, hc, hns⟩ := intStr_exists_nonspace q.num
    exact pyStrip_ne_empty _ c hc hns
  · obtain ⟨c, hc, hns⟩ := intStr_exists_nonspace ⌊q⌋
    refine pyStrip_ne_empty _ c ?_ hns
    rw [String.data_append, String.data_append]
    exact List.mem_append_left _ (List.mem_append_left _ hc)

theorem numCell_ne_empty (q : ℚ) : numCell q ≠ "" := by
  intro h
  have := numCell_strip_ne q
  rw [h] at this
  exact this rfl

theorem formatDMY_length (d : Date) : (formatDMY d).data.length = 10 := by
  simp [formatDMY, pad2, pad4, String.data_append]

theorem formatDMY_ne_hours (d : Date) : formatDMY d ≠ "HOURS" := by
  intro h
  have hlen : (formatDMY d).data.length = ("HOURS" : String).data.length := by rw [h]
  rw [formatDMY_length] at hlen
  simp at hlen

theorem formatDMY_ne_empty (d : Date) : formatDMY d ≠ "" := by
  intro h
  have hlen : (formatDMY d).data.length = ("" : String).data.length := by rw [h]
  rw [formatDMY_length] at hlen
  simp at hlen

/-! ## Lemmas: worksheet lines and the allocation writes -/

theorem rowValues_getD (w : Worksheet) (r i : Nat) (h : i < (rowValues w r).length) :
    (rowValues w r).getD i "" = getCell w r (i + 1) :=
  lineVals_getD _ _ i h

theorem colValues_getD (w : Worksheet) (c i : Nat) (h : i < (colValues w c).length) :
    (colValues w c).getD i "" = getCell w (i + 1) c :=
  lineVals_getD _ _ i h

theorem getCell_beyond_row (w : Worksheet) (r k : Nat) (hb : WsBounded w) (hk : 1 ≤ k)
    (h : (rowValues w r).length < k) : getCell w r k = "" := by
  refine lineVals_val_beyond _ _ ?_ k hk h
  intro k' hk'
  by_contra hne
  have := hb r k' hne
  omega

theorem getCell_beyond_col (w : Worksheet) (c k : Nat) (hb : WsBounded w) (hk : 1 ≤ k)
    (h : (colValues w c).length < k) : getCell w k c = "" := by
  refine lineVals_val_beyond _ _ ?_ k hk h
  intro k' hk'
  by_contra hne
  have := hb k' c hne
  omega

theorem rowValues_length_eq (w : Worksheet) (r L : Nat) (hLb : L ≤ w.cmax)
    (hbeyond : ∀ k, L < k → getCell w r k = "") (hlast : L = 0 ∨ getCell w r L ≠ "") :
    (rowValues w r).length = L :=
  lineVals_length_eq _ _ L hLb hbeyond hlast

theorem colValues_length_eq (w : Worksheet) (c L : Nat) (hLb : L ≤ w.rmax)
    (hbeyond : ∀ k, L < k → getCell w k c = "") (hlast : L = 0 ∨ getCell w L c ≠ "") :
    (colValues w c).length = L :=
  lineVals_length_eq _ _ L hLb hbeyond hlast

theorem scanRows_congr (p p' : Nat → String → Bool) (l : List String) (s : Nat)
    (h : ∀ i v, p i v = p' i v) : scanRows p l s = scanRows p' l s := by
  induction l generalizing s with
  | nil => rfl
  | cons v rest ih =>
    rw [scanRows_cons, scanRows_cons, h s v, ih (s + 1)]

theorem lookupWrite_nil (r c : Nat) : lookupWrite [] r c = none := rfl

theorem applyWrites_covers (l : List (Nat × Nat × String)) (w : Worksheet)
    (e : Nat × Nat × String) (he : e ∈ l) :
    e.1 ≤ (applyWrites w l).rmax ∧ e.2.1 ≤ (applyWrites w l).cmax := by
  induction l generalizing w with
  | nil => cases he
  | cons f rest ih =>
    rcases List.mem_cons.mp he with h | h
    · subst h
      have hm := applyWrites_rmax_le rest (setCell w e.1 e.2.1 e.2.2)
      constructor
      · exact le_trans (le_max_right _ _) hm.1
      · exact le_trans (le_max_right _ _) hm.2
    · exact ih (setCell w f.1 f.2.1 f.2.2) h

theorem dateColWrites_mem (hc dc : Nat) (df : String) (e : Nat × Nat × String)
    (he : e ∈ dateColWrites hc dc df) :
    (e.2.1 = hc ∧ 2 ≤ e.1 ∧ e.1 ≤ 5) ∨ (e.2.1 = dc ∧ 3 ≤ e.1 ∧ e.1 ≤ 70) := by
  unfold dateColWrites at he
  rw [List.mem_append] at he
  rcases he with h | h
  · simp only [List.mem_cons, List.not_mem_nil, or_false] at h
    rcases h with h | h | h | h | h | h | h
    case inl => subst h; exact Or.inl ⟨rfl, by omega, by omega⟩
    case inr.inl => subst h; exact Or.inl ⟨rfl, by omega, by omega⟩
    case inr.inr.inl => subst h; exact Or.inl ⟨rfl, by omega, by omega⟩
    case inr.inr.inr.inl => subst h; exact Or.inl ⟨rfl, by omega, by omega⟩
    case inr.inr.inr.inr.inl => subst h; exact Or.inr ⟨rfl, by omega, by omega⟩
    case inr.inr.inr.inr.inr.inl => subst h; exact Or.inr ⟨rfl, by omega, by omega⟩
    case inr.inr.inr.inr.inr.inr => subst h; exact Or.inr ⟨rfl, by omega, by omega⟩
  · rw [List.mem_map] at h
    obtain ⟨i, hi, hee⟩ := h
    rw [List.mem_range] at hi
    subst hee
    right
    simp
    omega

theorem dateColWrites_dc_mem (hc dc : Nat) (df : String) :
    ((5 : Nat), dc, df) ∈ dateColWrites hc dc df := by
  unfold dateColWrites
  refine List.mem_append_left _ ?_
  simp

theorem dateColWrites_lookup_hours (hc : Nat) (df : String) :
    lookupWrite (dateColWrites hc (hc + 1) df) 5 hc = some "HOURS" := by
  unfold dateColWrites
  rw [lookupWrite_append, lookupWrite_range_rows, if_neg (by omega), Option.none_or]
  simp [lookupWrite_cons, lookupWrite_nil, show hc + 1 ≠ hc from by omega,
    show hc ≠ hc + 1 from by omega]

theorem dateColWrites_lookup_date (hc : Nat) (df : String) :
    lookupWrite (dateColWrites hc (hc + 1) df) 5 (hc + 1) = some df := by
  unfold dateColWrites
  rw [lookupWrite_append, lookupWrite_range_rows, if_neg (by omega), Option.none_or]
  simp [lookupWrite_cons, lookupWrite_nil, show hc + 1 ≠ hc from by omega,
    show hc ≠ hc + 1 from by omega]

theorem getCell_dcw_hours (w : Worksheet) (hc : Nat) (df : String) :
    getCell (applyWrites w (dateColWrites hc (hc + 1) df)) 5 hc = "HOURS" := by
  rw [applyWrites_getCell, dateColWrites_lookup_hours]
  rfl

theorem getCell_dcw_date (w : Worksheet) (hc : Nat) (df : String) :
    getCell (applyWrites w (dateColWrites hc (hc + 1) df)) 5 (hc + 1) = df := by
  rw [applyWrites_getCell, dateColWrites_lookup_date]
  rfl

theorem getCell_dcw_row5_other (w : Worksheet) (hc dc : Nat) (df : String) (c : Nat)
    (h1 : c ≠ hc) (h2 : c ≠ dc) :
    getCell (applyWrites w (dateColWrites hc dc df)) 5 c = getCell w 5 c := by
  apply getCell_applyWrites_untouched
  intro e he hcon
  rcases dateColWrites_mem hc dc df e he with h | h
  · exact h1 (hcon.2 ▸ h.1 ▸ rfl)
  · exact h2 (hcon.2 ▸ h.1 ▸ rfl)

theorem getCell_dcw_data_rows (w : Worksheet) (hc dc : Nat) (df : String) (r c : Nat)
    (h6 : 6 ≤ r) (hcdc : c ≠ dc) :
    getCell (applyWrites w (dateColWrites hc dc df)) r c = getCell w r c := by
  apply getCell_applyWrites_untouched
  intro e he hcon
  rcases dateColWrites_mem hc dc df e he with h | h
  · omega
  · exact hcdc (hcon.2 ▸ h.1 ▸ rfl)

theorem getCell_dcw_col2 (w : Worksheet) (hc dc : Nat) (df : String) (r : Nat)
    (hhc : 3 ≤ hc) (hdc : 3 ≤ dc) :
    getCell (applyWrites w (dateColWrites hc dc df)) r 2 = getCell w r 2 := by
  apply getCell_applyWrites_untouched
  intro e he hcon
  rcases dateColWrites_mem hc dc df e he with h | h <;> omega

/-! ## Lemmas: re-resolution after an allocation (claim C4) -/

theorem row_rescan_core (w W : Worksheet) (df : String) (hdfe : df ≠ "")
    (hdfH : df ≠ "HOURS") (hb : WsBounded w) (L nc : Nat)
    (hL : L = (rowValues w 5).length)
    (hnc : nc = if L + 1 < 3 then 3 else L + 1)
    (hnone : scanRows (dateScanP df) (rowValues w 5) 1 = none)
    (hcmax : nc + 1 ≤ W.cmax)
    (hhours : getCell W 5 nc = "HOURS")
    (hdate : getCell W 5 (nc + 1) = df)
    (hother : ∀ c, c ≠ nc → c ≠ nc + 1 → getCell W 5 c = getCell w 5 c) :
    (rowValues W 5).length = nc + 1 ∧
    scanRows (dateScanP df) (rowValues W 5) 1 = some (nc + 1) := by
  have hcase : (nc = 3 ∧ L + 1 ≤ 3) ∨ (nc = L + 1 ∧ 3 ≤ L + 1) := by
    rw [hnc]
    split
    · rename_i hlt
      exact Or.inl ⟨rfl, by omega⟩
    · rename_i hge
      exact Or.inr ⟨rfl, by omega⟩
  have hnc3 : 3 ≤ nc ∧ L + 1 ≤ nc := by rcases hcase with ⟨h1, h2⟩ | ⟨h1, h2⟩ <;> omega
  have hbeyond_old : ∀ k, L < k → getCell w 5 k = "" := by
    intro k hk
    exact getCell_beyond_row w 5 k hb (by omega) (by omega)
  have hlen : (rowValues W 5).length = nc + 1 := by
    apply rowValues_length_eq _ _ _ hcmax
    · intro k hk
      rw [hother k (by omega) (by omega)]
      exact hbeyond_old k (by omega)
    · right
      rw [hdate]
      exact hdfe
  refine ⟨hlen, ?_⟩
  rw [scanRows_eq_some_iff]
  refine ⟨by omega, by rw [hlen]; omega, ?_, ?_⟩
  · have hg : (rowValues W 5).getD (nc + 1 - 1) "" = df := by
      rw [show nc + 1 - 1 = nc from rfl, rowValues_getD _ _ _ (by omega), hdate]
    rw [hg]
    unfold dateScanP
    rw [Bool.and_eq_true, decide_eq_true_iff]
    exact ⟨by omega, by simp⟩
  · intro k hk1 hk2
    by_cases hk3 : k ≤ 2
    · unfold dateScanP
      rw [Bool.eq_false_iff]
      intro hcon
      rw [Bool.and_eq_true, decide_eq_true_iff] at hcon
      omega
    · have hkv : (rowValues W 5).getD (k - 1) "" = getCell W 5 k := by
        rw [rowValues_getD _ _ _ (by omega)]
        congr 1
        omega
      rw [hkv]
      by_cases hknc : k = nc
      · subst hknc
        rw [hhours]
        unfold dateScanP
        rw [Bool.eq_false_iff]
        intro hcon
        rw [Bool.and_eq_true] at hcon
        have := (beq_iff_eq).mp hcon.2
        exact hdfH this.symm
      · have hkL : k ≤ L := by rcases hcase with ⟨h1, h2⟩ | ⟨h1, h2⟩ <;> omega
        rw [hother k hknc (by omega)]
        rw [scanRows_eq_none_iff] at hnone
        have := hnone (k - 1) (by omega)
        have harith : 1 + (k - 1) = k := by omega
        rw [harith] at this
        have hgd : (rowValues w 5).getD (k - 1) "" = getCell w 5 k := by
          rw [rowValues_getD _ _ _ (by omega)]
          congr 1
          omega
        rw [hgd] at this
        exact this

theorem date_rescan (w : Worksheet) (df : String) (hdfe : df ≠ "") (hdfH : df ≠ "HOURS")
    (hb : WsBounded w) (L nc : Nat) (hL : L = (rowValues w 5).length)
    (hnc : nc = if L + 1 < 3 then 3 else L + 1)
    (hnone : scanRows (dateScanP df) (rowValues w 5) 1 = none) :
    (rowValues (applyWrites w (dateColWrites nc (nc + 1) df)) 5).length = nc + 1 ∧
    scanRows (dateScanP df) (rowValues (applyWrites w (dateColWrites nc (nc + 1) df)) 5) 1
      = some (nc + 1) :=
  row_rescan_core w (applyWrites w (dateColWrites nc (nc + 1) df)) df hdfe hdfH hb L nc hL
    hnc hnone
    (applyWrites_covers _ w _ (dateColWrites_dc_mem nc (nc + 1) df)).2
    (getCell_dcw_hours w nc df)
    (getCell_dcw_date w nc df)
    (fun c h1 h2 => getCell_dcw_row5_other w nc (nc + 1) df c h1 h2)

theorem emp_rescan (w : Worksheet) (n₁ n₂ : String) (hne : n₁ ≠ "")
    (hcan : canon n₁ = canon n₂) (hb : WsBounded w) (L nr : Nat)
    (hL : L = (colValues w 2).length) (hnr : nr = if L + 1 < 6 then 6 else L + 1)
    (hnone : scanRows (empScanP n₁) (colValues w 2) 1 = none) :
    (colValues (setCell w nr 2 n₁) 2).length = nr ∧
    scanRows (empScanP n₂) (colValues (setCell w nr 2 n₁) 2) 1 = some nr := by
  have hcase : (nr = 6 ∧ L + 1 ≤ 6) ∨ (nr = L + 1 ∧ 6 ≤ L + 1) := by
    rw [hnr]
    split
    · rename_i hlt
      exact Or.inl ⟨rfl, by omega⟩
    · rename_i hge
      exact Or.inr ⟨rfl, by omega⟩
  have hnr6 : 6 ≤ nr ∧ L + 1 ≤ nr := by rcases hcase with ⟨h1, h2⟩ | ⟨h1, h2⟩ <;> omega
  have hg' : ∀ r, getCell (setCell w nr 2 n₁) r 2 = if r = nr then n₁ else getCell w r 2 := by
    intro r
    rw [getCell_setCell]
    by_cases hr : r = nr
    · rw [if_pos ⟨hr, rfl⟩, if_pos hr]
    · rw [if_neg (fun h => hr h.1), if_neg hr]
  have hbeyond_old : ∀ k, L < k → getCell w k 2 = "" := by
    intro k hk
    exact getCell_beyond_col w 2 k hb (by omega) (by omega)
  have hrmax : nr ≤ (setCell w nr 2 n₁).rmax := le_max_right _ _
  have hmatch : ∀ v, empMatch v n₂ = empMatch v n₁ := by
    intro v
    rw [empMatch_canon, empMatch_canon, hcan]
  have hlen : (colValues (setCell w nr 2 n₁) 2).length = nr := by
    apply colValues_length_eq _ _ _ hrmax
    · intro k hk
      rw [hg' k, if_neg (by omega)]
      exact hbeyond_old k (by omega)
    · right
      rw [hg' nr, if_pos rfl]
      exact hne
  refine ⟨hlen, ?_⟩
  rw [scanRows_eq_some_iff]
  refine ⟨by omega, by rw [hlen]; omega, ?_, ?_⟩
  · have hgd : (colValues (setCell w nr 2 n₁) 2).getD (nr - 1) "" = n₁ := by
      rw [show (colValues (setCell w nr 2 n₁) 2).getD (nr - 1) ""
          = getCell (setCell w nr 2 n₁) (nr - 1 + 1) 2 from
        colValues_getD _ _ _ (by omega)]
      rw [show nr - 1 + 1 = nr from by omega, hg' nr, if_pos rfl]
    rw [hgd]
    unfold empScanP
    rw [Bool.and_eq_true, decide_eq_true_iff]
    refine ⟨by omega, ?_⟩
    rw [hmatch n₁, empMatch_canon]
    simp
  · intro k hk1 hk2
    by_cases hk5 : k ≤ 5
    · unfold empScanP
      rw [Bool.eq_false_iff]
      intro hcon
      rw [Bool.and_eq_true, decide_eq_true_iff] at hcon
      omega
    · have hkv : (colValues (setCell w nr 2 n₁) 2).getD (k - 1) ""
          = getCell (setCell w nr 2 n₁) k 2 := by
        rw [colValues_getD _ _ _ (by omega)]
        congr 1
        omega
      rw [hkv, hg' k, if_neg (by omega)]
      have hkL : k ≤ L := by rcases hcase with ⟨h1, h2⟩ | ⟨h1, h2⟩ <;> omega
      rw [scanRows_eq_none_iff] at hnone
      have := hnone (k - 1) (by omega)
      have harith : 1 + (k - 1) = k := by omega
      rw [harith] at this
      have hgd : (colValues w 2).getD (k - 1) "" = getCell w k 2 := by
        rw [colValues_getD _ _ _ (by omega)]
        congr 1
        omega
      rw [hgd] at this
      unfold empScanP at this ⊢
      rw [Bool.eq_false_iff] at this ⊢
      intro hcon
      rw [Bool.and_eq_true, hmatch] at hcon
      exact this (by rw [Bool.and_eq_true]; exact hcon)

theorem emp_row_found (name : String) (w : Worksheet) (idx : Nat)
    (h : scanRows (empScanP name) (colValues w 2) 1 = some idx) :
    get_or_create_employee_row name w = (.ok idx, w, []) := by
  simp [get_or_create_employee_row, h]

theorem emp_row_cap (name : String) (w : Worksheet)
    (h : scanRows (empScanP name) (colValues w 2) 1 = none)
    (hcap : (if (colValues w 2).length + 1 < 6 then 6 else (colValues w 2).length + 1) > 75) :
    get_or_create_employee_row name w = (.error .capacityExceeded, w, []) := by
  simp only [get_or_create_employee_row, h]
  rw [if_pos hcap]

theorem emp_row_alloc (name : String) (w : Worksheet)
    (h : scanRows (empScanP name) (colValues w 2) 1 = none)
    (hcap : ¬ (if (colValues w 2).length + 1 < 6 then 6 else (colValues w 2).length + 1) > 75) :
    get_or_create_employee_row name w
      = (.ok (if (colValues w 2).length + 1 < 6 then 6 else (colValues w 2).length + 1),
         setCell w (if (colValues w 2).length + 1 < 6 then 6 else (colValues w 2).length + 1)
           2 name,
         [((if (colValues w 2).length + 1 < 6 then 6 else (colValues w 2).length + 1),
           2, name)]) := by
  simp only [get_or_create_employee_row, h]
  rw [if_neg hcap]

theorem date_col_found (d : Date) (w : Worksheet) (idx : Nat)
    (h : scanRows (dateScanP (formatDMY d)) (rowValues w 5) 1 = some idx) :
    get_or_create_date_column d w = ((idx - 1, false), w, []) := by
  simp [get_or_create_date_column, h]

/-- C4: `get_or_create_date_column` and `get_or_create_employee_row` are
idempotent.  For every sheet state (with its support inside the grid
bounds), a second call with the same date returns the same hours-column
index, reports `created = false`, issues no write and leaves the sheet
unchanged; a second call with the same employee name — up to letter case
and surrounding whitespace, the empty string excluded since the API model
requires a non-empty name — returns the same row (or the same capacity
error), issues no write and leaves the sheet unchanged. -/
theorem resolve_idempotent :
    (∀ (w : Worksheet) (d : Date), WsBounded w →
        (get_or_create_date_column d (get_or_create_date_column d w).2.1).1.1
            = (get_or_create_date_column d w).1.1 ∧
        (get_or_create_date_column d (get_or_create_date_column d w).2.1).1.2 = false ∧
        (get_or_create_date_column d (get_or_create_date_column d w).2.1).2.2 = [] ∧
        (get_or_create_date_column d (get_or_create_date_column d w).2.1).2.1
            = (get_or_create_date_column d w).2.1) ∧
    (∀ (w : Worksheet) (n₁ n₂ : String), WsBounded w → n₁ ≠ "" → canon n₁ = canon n₂ →
        (get_or_create_employee_row n₂ (get_or_create_employee_row n₁ w).2.1).1
            = (get_or_create_employee_row n₁ w).1 ∧
        (get_or_create_employee_row n₂ (get_or_create_employee_row n₁ w).2.1).2.2 = [] ∧
        (get_or_create_employee_row n₂ (get_or_create_employee_row n₁ w).2.1).2.1
            = (get_or_create_employee_row n₁ w).2.1) := by
  constructor
  · intro w d hb
    cases hscan : scanRows (dateScanP (formatDMY d)) (rowValues w 5) 1 with
    | some idx =>
      simp [get_or_create_date_column, hscan]
    | none =>
      have hre := date_rescan w (formatDMY d) (formatDMY_ne_empty d) (formatDMY_ne_hours d)
        hb ((rowValues w 5).length)
        (if (rowValues w 5).length + 1 < 3 then 3 else (rowValues w 5).length + 1)
        rfl rfl hscan
      simp only [get_or_create_date_column, hscan]
      rw [hre.2]
      simp
  · intro w n₁ n₂ hb hne hcan
    have hcongr : scanRows (empScanP n₂) (colValues w 2) 1
        = scanRows (empScanP n₁) (colValues w 2) 1 := by
      apply scanRows_congr
      intro i v
      unfold empScanP
      rw [empMatch_canon, empMatch_canon, hcan]
    cases hscan : scanRows (empScanP n₁) (colValues w 2) 1 with
    | some idx =>
      have h1 := emp_row_found n₁ w idx hscan
      have h2 := emp_row_found n₂ w idx (by rw [hcongr]; exact hscan)
      rw [h1]
      exact ⟨by rw [h2], by rw [h2], by rw [h2]⟩
    | none =>
      by_cases hcap :
          (if (colValues w 2).length + 1 < 6 then 6 else (colValues w 2).length + 1) > 75
      · have h1 := emp_row_cap n₁ w hscan hcap
        have h2 := emp_row_cap n₂ w (by rw [hcongr]; exact hscan) hcap
        rw [h1]
        exact ⟨by rw [h2], by rw [h2], by rw [h2]⟩
      · have hre := emp_rescan w n₁ n₂ hne hcan hb ((colValues w 2).length)
          (if (colValues w 2).length + 1 < 6 then 6 else (colValues w 2).length + 1)
          rfl rfl hscan
        have h1 := emp_row_alloc n₁ w hscan hcap
        have h2 := emp_row_found n₂
          (setCell w (if (colValues w 2).length + 1 < 6 then 6 else (colValues w 2).length + 1)
            2 n₁)
          (if (colValues w 2).length + 1 < 6 then 6 else (colValues w 2).length + 1) hre.2
        rw [h1]
        exact ⟨by rw [h2], by rw [h2], by rw [h2]⟩

theorem resolve_idempotent_witness :
    WsBounded freshWorksheet ∧ ("John Doe" : String) ≠ "" ∧
    canon "John Doe" = canon "  JOHN DOE " ∧
    (get_or_create_date_column ⟨2026, 1, 28⟩
        (get_or_create_date_column ⟨2026, 1, 28⟩ freshWorksheet).2.1).1.1
      = (get_or_create_date_column ⟨2026, 1, 28⟩ freshWorksheet).1.1 ∧
    (get_or_create_employee_row "  JOHN DOE "
        (get_or_create_employee_row "John Doe" freshWorksheet).2.1).1
      = (get_or_create_employee_row "John Doe" freshWorksheet).1 := by
  have hb : WsBounded freshWorksheet := fun r c h => absurd rfl h
  have h1 : ("John Doe" : String) ≠ "" := by decide
  have h2 : canon "John Doe" = canon "  JOHN DOE " := by decide
  exact ⟨hb, h1, h2, (resolve_idempotent.1 freshWorksheet ⟨2026, 1, 28⟩ hb).1,
    (resolve_idempotent.2 freshWorksheet "John Doe" "  JOHN DOE " hb h1 h2).1⟩

/-! ## Lemmas: single-cell writes and line stability -/

theorem rowValues_setCell_avoid (w : Worksheet) (r c : Nat) (v : String) (r' : Nat)
    (hb : WsBounded w) (h : r ≠ r') :
    rowValues (setCell w r c v) r' = rowValues w r' := by
  rw [← applyWrites_singleton]
  apply rowValues_applyWrites_avoid _ w r' hb
  intro e he
  rw [List.mem_singleton] at he
  subst he
  exact h

theorem colValues_setCell_avoid (w : Worksheet) (r c : Nat) (v : String) (c' : Nat)
    (hb : WsBounded w) (h : c ≠ c') :
    colValues (setCell w r c v) c' = colValues w c' := by
  rw [← applyWrites_singleton]
  apply colValues_applyWrites_avoid _ w c' hb
  intro e he
  rw [List.mem_singleton] at he
  subst he
  exact h

theorem getCell_dcw_other (w : Worksheet) (hc dc : Nat) (df : String) (r c : Nat)
    (h1 : c ≠ hc) (h2 : c ≠ dc) :
    getCell (applyWrites w (dateColWrites hc dc df)) r c = getCell w r c := by
  apply getCell_applyWrites_untouched
  intro e he hcon
  rcases dateColWrites_mem hc dc df e he with h | h
  · exact h1 (hcon.2 ▸ h.1 ▸ rfl)
  · exact h2 (hcon.2 ▸ h.1 ▸ rfl)

/-! ## Lemmas: the spreadsheet store -/

theorem mem_storeSheetAux (l : List (String × Worksheet)) (n : String) (w : Worksheet)
    (e : String × Worksheet) (he : e ∈ storeSheetAux l n w) : e = (n, w) ∨ e ∈ l := by
  induction l with
  | nil => cases he
  | cons f rest ih =>
    have he' : e ∈ (if f.1 = n then (n, w) :: rest else f :: storeSheetAux rest n w) := he
    by_cases hf : f.1 = n
    · rw [if_pos hf] at he'
      rcases List.mem_cons.mp he' with h | h
      · exact Or.inl h
      · exact Or.inr (List.mem_cons_of_mem _ h)
    · rw [if_neg hf] at he'
      rcases List.mem_cons.mp he' with h | h
      · exact Or.inr (h ▸ List.mem_cons_self f rest)
      · rcases ih h with h' | h'
        · exact Or.inl h'
        · exact Or.inr (List.mem_cons_of_mem _ h')

theorem storeSheetAux_self (l : List (String × Worksheet)) (n : String) (w : Worksheet)
    (h : (l.find? fun e => e.1 = n).map (fun e => e.2) = some w) :
    storeSheetAux l n w = l := by
  induction l with
  | nil => exact Option.noConfusion h
  | cons f rest ih =>
    by_cases hf : f.1 = n
    · have hfind : (f :: rest).find? (fun e => e.1 = n) = some f :=
        List.find?_cons_of_pos _ (decide_eq_true hf)
      rw [hfind] at h
      show (if f.1 = n then (n, w) :: rest else f :: storeSheetAux rest n w) = f :: rest
      rw [if_pos hf]
      obtain ⟨f1, f2⟩ := f
      have hf' : f1 = n := hf
      have h' : f2 = w := by injection h
      rw [hf', h']
    · have hfind : (f :: rest).find? (fun e => e.1 = n) = rest.find? (fun e => e.1 = n) :=
        List.find?_cons_of_neg _ (by simpa using hf)
      rw [hfind] at h
      show (if f.1 = n then (n, w) :: rest else f :: storeSheetAux rest n w) = f :: rest
      rw [if_neg hf, ih h]

theorem storeSheet_self (st : Spreadsheet) (n : String) (w : Worksheet)
    (h : lookupSheet st n = some w) : storeSheet st n w = st := by
  have h' : (st.sheets.find? fun e => e.1 = n).map (fun e => e.2) = some w := h
  show ({ st with sheets := storeSheetAux st.sheets n w } : Spreadsheet) = st
  rw [storeSheetAux_self st.sheets n w h']

theorem SpInv_lookup (st : Spreadsheet) (n : String) (w : Worksheet) (hinv : SpInv st)
    (h : lookupSheet st n = some w) : WsInv w := by
  have h' : (st.sheets.find? fun e => e.1 = n).map (fun e => e.2) = some w := h
  cases hf : st.sheets.find? fun e => e.1 = n with
  | none => rw [hf] at h'; cases h'
  | some e =>
    rw [hf] at h'
    have h'' : e.2 = w := by injection h'
    have he : e ∈ st.sheets := List.mem_of_find?_eq_some hf
    rw [← h'']
    exact hinv e he

theorem SpInv_storeSheet (st : Spreadsheet) (n : String) (w : Worksheet)
    (hsp : SpInv st) (hw : WsInv w) : SpInv (storeSheet st n w) := by
  intro e he
  rcases mem_storeSheetAux st.sheets n w e he with h | h
  · rw [h]; exact hw
  · exact hsp e h

theorem SpInv_addSheet (st : Spreadsheet) (n : String) (w : Worksheet)
    (hsp : SpInv st) (hw : WsInv w) : SpInv (addSheet st n w) := by
  intro e he
  rcases List.mem_append.mp he with h | h
  · exact hsp e h
  · rw [List.mem_singleton.mp h]; exact hw

theorem SpInv_putSheet (ms : MonthSheetResult) (st : Spreadsheet) (w : Worksheet)
    (hsp : SpInv st) (hw : WsInv w) : SpInv (putSheet ms st w) := by
  unfold putSheet
  split
  · exact SpInv_addSheet st ms.name w hsp hw
  · exact SpInv_storeSheet st ms.name w hsp hw

theorem find_storeSheetAux_hit (l : List (String × Worksheet)) (n : String) (w' : Worksheet)
    (h : (l.find? fun e => e.1 = n).isSome) :
    ((storeSheetAux l n w').find? fun e => e.1 = n) = some (n, w') := by
  induction l with
  | nil => exact Bool.noConfusion h
  | cons f rest ih =>
    by_cases hf : f.1 = n
    · show ((if f.1 = n then (n, w') :: rest else f :: storeSheetAux rest n w').find?
        fun e => e.1 = n) = some (n, w')
      rw [if_pos hf, List.find?_cons_of_pos _ (by simp)]
    · show ((if f.1 = n then (n, w') :: rest else f :: storeSheetAux rest n w').find?
        fun e => e.1 = n) = some (n, w')
      rw [if_neg hf, List.find?_cons_of_neg _ (by simpa using hf)]
      apply ih
      rw [List.find?_cons_of_neg _ (by simpa using hf)] at h
      exact h

theorem lookupSheet_storeSheet_hit (st : Spreadsheet) (n : String) (w w' : Worksheet)
    (h : lookupSheet st n = some w) : lookupSheet (storeSheet st n w') n = some w' := by
  show ((storeSheetAux st.sheets n w').find? fun e => e.1 = n).map (fun e => e.2) = some w'
  rw [find_storeSheetAux_hit st.sheets n w' ?_]
  · rfl
  · have h' : (st.sheets.find? fun e => e.1 = n).map (fun e => e.2) = some w := h
    cases hf : st.sheets.find? fun e => e.1 = n with
    | none => rw [hf] at h'; cases h'
    | some e => rfl

theorem find_append_none (l₁ l₂ : List (String × Worksheet))
    (p : String × Worksheet → Bool) (h : l₁.find? p = none) :
    (l₁ ++ l₂).find? p = l₂.find? p := by
  induction l₁ with
  | nil => rfl
  | cons f rest ih =>
    cases hp : p f with
    | true => rw [List.find?_cons_of_pos _ hp] at h; cases h
    | false =>
      rw [List.find?_cons_of_neg _ (by simp [hp])] at h
      rw [List.cons_append, List.find?_cons_of_neg _ (by simp [hp])]
      exact ih h

theorem lookupSheet_addSheet (st : Spreadsheet) (n : String) (w' : Worksheet)
    (h : lookupSheet st n = none) : lookupSheet (addSheet st n w') n = some w' := by
  have hf : st.sheets.find? (fun e => e.1 = n) = none := by
    have h' : (st.sheets.find? fun e => e.1 = n).map (fun e => e.2) = none := h
    cases hf : st.sheets.find? fun e => e.1 = n with
    | none => rfl
    | some e => rw [hf] at h'; cases h'
  show ((st.sheets ++ [(n, w')]).find? fun e => e.1 = n).map (fun e => e.2) = some w'
  rw [find_append_none _ _ _ hf, List.find?_cons_of_pos _ (by simp)]
  rfl

/-! ## Lemmas: dashboard initialization and the month sheet -/

theorem init_dashboard_noop (w : Worksheet) (ha : getCell w 6 1 = "1")
    (hb5 : getCell w 5 2 = hebrewHeader) : init_dashboard w = (w, []) := by
  have hcond1 : ¬(getCell w 6 1 = "" ∨ getCell w 6 1 ≠ "1") := by
    rw [ha]; decide
  have hcond2 : ¬(getCell w 5 2 = "" ∨ getCell w 5 2 ≠ hebrewHeader) := by
    rw [hb5]
    rintro (h | h)
    · exact absurd h (by decide)
    · exact h rfl
  simp only [init_dashboard]
  rw [if_neg hcond1]
  dsimp only
  rw [if_neg hcond2]
  rfl

theorem month_sheet_existing (st : Spreadsheet) (d : Date) (w : Worksheet)
    (hlk : lookupSheet st (monthSheetName d) = some w)
    (ha : getCell w 6 1 = "1") (hb5 : getCell w 5 2 = hebrewHeader) :
    (get_or_create_month_sheet st d).ws = w ∧
    (get_or_create_month_sheet st d).name = monthSheetName d ∧
    (get_or_create_month_sheet st d).created = false ∧
    (get_or_create_month_sheet st d).writes = [] := by
  simp only [get_or_create_month_sheet, hlk]
  split
  · rw [init_dashboard_noop w ha hb5]
    refine ⟨?_, ?_, ?_, ?_⟩ <;> first | rfl | trivial
  · refine ⟨?_, ?_, ?_, ?_⟩ <;> first | rfl | trivial

theorem month_sheet_fresh (st : Spreadsheet) (d : Date)
    (hlk : lookupSheet st (monthSheetName d) = none) :
    (get_or_create_month_sheet st d).ws = (init_dashboard freshWorksheet).1 ∧
    (get_or_create_month_sheet st d).created = true ∧
    (get_or_create_month_sheet st d).name = monthSheetName d := by
  simp only [get_or_create_month_sheet, hlk]
  refine ⟨?_, ?_, ?_⟩ <;> first | rfl | trivial

theorem init_dashboard_fresh :
    init_dashboard freshWorksheet
      = (setCell (applyWrites freshWorksheet
            ((List.range 70).map fun i => (6 + i, 1, natStr (i + 1)))) 5 2 hebrewHeader,
         ((List.range 70).map fun i => (6 + i, 1, natStr (i + 1))) ++ [(5, 2, hebrewHeader)]) := by
  have hb5 : getCell (applyWrites freshWorksheet
      ((List.range 70).map fun i => (6 + i, 1, natStr (i + 1)))) 5 2 = "" := by
    rw [applyWrites_getCell, lookupWrite_range_rows, if_neg (by omega)]
    rfl
  have ha : getCell freshWorksheet 6 1 = "" := rfl
  simp only [init_dashboard]
  rw [if_pos (Or.inl ha)]
  dsimp only
  rw [hb5, if_pos (Or.inl rfl)]

theorem W0_cell (r c : Nat) :
    getCell (init_dashboard freshWorksheet).1 r c
      = if r = 5 ∧ c = 2 then hebrewHeader
        else if 6 ≤ r ∧ r ≤ 75 ∧ c = 1 then natStr (r - 5) else "" := by
  rw [init_dashboard_fresh]
  show getCell (setCell (applyWrites freshWorksheet
      ((List.range 70).map fun i => (6 + i, 1, natStr (i + 1)))) 5 2 hebrewHeader) r c = _
  rw [getCell_setCell, applyWrites_getCell, lookupWrite_range_rows]
  by_cases h1 : r = 5 ∧ c = 2
  · rw [if_pos h1, if_pos h1]
  · rw [if_neg h1, if_neg h1]
    by_cases h2 : 6 ≤ r ∧ r < 6 + 70 ∧ c = 1
    · rw [if_pos h2, if_pos (show 6 ≤ r ∧ r ≤ 75 ∧ c = 1 from ⟨h2.1, by omega, h2.2.2⟩),
        Option.getD_some]
      congr 1
      omega
    · rw [if_neg h2, if_neg (fun h3 => h2 ⟨h3.1, by omega, h3.2.2⟩)]
      rfl

theorem W0_rmax : 100 ≤ (init_dashboard freshWorksheet).1.rmax ∧
    50 ≤ (init_dashboard freshWorksheet).1.cmax := by
  rw [init_dashboard_fresh]
  constructor
  · show 100 ≤ max (applyWrites freshWorksheet
      ((List.range 70).map fun i => (6 + i, 1, natStr (i + 1)))).rmax 5
    have := (applyWrites_rmax_le ((List.range 70).map fun i => (6 + i, 1, natStr (i + 1)))
      freshWorksheet).1
    have h100 : freshWorksheet.rmax = 100 := rfl
    omega
  · show 50 ≤ max (applyWrites freshWorksheet
      ((List.range 70).map fun i => (6 + i, 1, natStr (i + 1)))).cmax 2
    have := (applyWrites_rmax_le ((List.range 70).map fun i => (6 + i, 1, natStr (i + 1)))
      freshWorksheet).2
    have h50 : freshWorksheet.cmax = 50 := rfl
    omega

theorem W0_row5 : rowValues (init_dashboard freshWorksheet).1 5 = ["", hebrewHeader] := by
  set_option maxRecDepth 10000 in decide

theorem W0_date_scan_none (df : String) :
    scanRows (dateScanP df) (rowValues (init_dashboard freshWorksheet).1 5) 1 = none := by
  rw [W0_row5]
  rfl

theorem W0_colB_len : (colValues (init_dashboard freshWorksheet).1 2).length = 5 := by
  apply colValues_length_eq _ _ _ (le_trans (by omega) W0_rmax.1)
  · intro k hk
    rw [W0_cell, if_neg (by omega), if_neg (by omega)]
  · right
    rw [W0_cell, if_pos ⟨rfl, rfl⟩]
    decide

theorem WsInv_W0 : WsInv (init_dashboard freshWorksheet).1 := by
  have hlen5 : (rowValues (init_dashboard freshWorksheet).1 5).length = 2 := by
    rw [W0_row5]
    rfl
  refine ⟨?_, ?_, ?_, ?_, ?_, ?_, ?_, ?_⟩
  · intro r c h
    have h' : getCell (init_dashboard freshWorksheet).1 r c ≠ "" := h
    rw [W0_cell] at h'
    split_ifs at h' with h1 h2
    · exact ⟨by have := W0_rmax; omega, by have := W0_rmax; omega⟩
    · exact ⟨by have := W0_rmax; omega, by have := W0_rmax; omega⟩
    · exact absurd rfl h'
  · rw [W0_cell, if_neg (by omega), if_pos (show 6 ≤ 6 ∧ 6 ≤ 75 ∧ 1 = 1 by omega)]
    decide
  · rw [W0_cell, if_pos ⟨rfl, rfl⟩]
  · rw [hlen5]
  · intro c h3 hle _
    rw [hlen5] at hle
    exact absurd h3 (by omega)
  · intro r c hgt
    rw [hlen5] at hgt
    rw [W0_cell, if_neg (by omega), if_neg (by omega)]
  · intro r h6 hle
    rw [W0_colB_len] at hle
    exact absurd h6 (by omega)
  · intro r c h6 hhdr _
    rw [W0_cell] at hhdr
    split_ifs at hhdr with h1 h2
    · exact absurd hhdr (by decide)
    · exact absurd h2.1 (by omega)
    · exact absurd hhdr (by decide)

theorem gms_inv (st : Spreadsheet) (d : Date) (hsp : SpInv st) :
    WsInv (get_or_create_month_sheet st d).ws := by
  cases hlk : lookupSheet st (monthSheetName d) with
  | some w =>
    have hw := SpInv_lookup st _ w hsp hlk
    rw [(month_sheet_existing st d w hlk hw.a6 hw.b5).1]
    exact hw
  | none =>
    rw [(month_sheet_fresh st d hlk).1]
    exact WsInv_W0

/-! ## Lemmas: outcome shapes of the resolution calls -/

theorem date_col_alloc (d : Date) (w : Worksheet)
    (h : scanRows (dateScanP (formatDMY d)) (rowValues w 5) 1 = none) :
    get_or_create_date_column d w
      = (((if (rowValues w 5).length + 1 < 3 then 3 else (rowValues w 5).length + 1), true),
         applyWrites w (dateColWrites
           (if (rowValues w 5).length + 1 < 3 then 3 else (rowValues w 5).length + 1)
           ((if (rowValues w 5).length + 1 < 3 then 3 else (rowValues w 5).length + 1) + 1)
           (formatDMY d)),
         dateColWrites
           (if (rowValues w 5).length + 1 < 3 then 3 else (rowValues w 5).length + 1)
           ((if (rowValues w 5).length + 1 < 3 then 3 else (rowValues w 5).length + 1) + 1)
           (formatDMY d)) := by
  simp only [get_or_create_date_column, h]

theorem date_res_cases (d : Date) (w : Worksheet) (hinv : WsInv w) :
    (∃ idx, scanRows (dateScanP (formatDMY d)) (rowValues w 5) 1 = some idx ∧
        get_or_create_date_column d w = ((idx - 1, false), w, []) ∧
        4 ≤ idx ∧ idx ≤ (rowValues w 5).length ∧ idx % 2 = 0 ∧
        getCell w 5 (idx - 1) = "HOURS") ∨
    (scanRows (dateScanP (formatDMY d)) (rowValues w 5) 1 = none ∧
        get_or_create_date_column d w
          = (((rowValues w 5).length + 1, true),
             applyWrites w (dateColWrites ((rowValues w 5).length + 1)
               ((rowValues w 5).length + 1 + 1) (formatDMY d)),
             dateColWrites ((rowValues w 5).length + 1)
               ((rowValues w 5).length + 1 + 1) (formatDMY d)) ∧
        3 ≤ (rowValues w 5).length + 1 ∧
        (rowValues (applyWrites w (dateColWrites ((rowValues w 5).length + 1)
            ((rowValues w 5).length + 1 + 1) (formatDMY d))) 5).length
          = (rowValues w 5).length + 1 + 1) := by
  have hb := hinv.bounded
  have hL2 : 2 ≤ (rowValues w 5).length := by
    by_contra hlt
    push_neg at hlt
    have := getCell_beyond_row w 5 2 hb (by omega) (by omega)
    rw [hinv.b5] at this
    exact absurd this (by decide)
  cases hscan : scanRows (dateScanP (formatDMY d)) (rowValues w 5) 1 with
  | some idx =>
    left
    obtain ⟨h1, h2, h3, _⟩ :=
      (scanRows_eq_some_iff (dateScanP (formatDMY d)) (rowValues w 5) 1 idx).mp hscan
    unfold dateScanP at h3
    rw [Bool.and_eq_true, decide_eq_true_iff] at h3
    obtain ⟨hidx3, hvq⟩ := h3
    have hgd : (rowValues w 5).getD (idx - 1) "" = getCell w 5 idx := by
      rw [rowValues_getD w 5 (idx - 1) (by omega)]
      congr 1
      omega
    rw [hgd] at hvq
    have hval : getCell w 5 idx = formatDMY d := eq_of_beq hvq
    have hilen : idx ≤ (rowValues w 5).length := by omega
    have hieven : idx % 2 = 0 := by
      by_contra hodd
      have hh := hinv.hoursHdr idx hidx3 hilen (by omega)
      rw [hval] at hh
      exact formatDMY_ne_hours d hh
    refine ⟨idx, rfl, date_col_found d w idx hscan, by omega, hilen, hieven, ?_⟩
    exact hinv.hoursHdr (idx - 1) (by omega) (by omega) (by omega)
  | none =>
    right
    have halloc := date_col_alloc d w hscan
    rw [if_neg (show ¬((rowValues w 5).length + 1 < 3) from by omega)] at halloc
    have hre := date_rescan w (formatDMY d) (formatDMY_ne_empty d) (formatDMY_ne_hours d)
      hb ((rowValues w 5).length) ((rowValues w 5).length + 1) rfl
      (by rw [if_neg (by omega)]) hscan
    exact ⟨rfl, halloc, by omega, hre.1⟩

theorem emp_ok_cases (name : String) (w : Worksheet) (row : Nat)
    (h : (get_or_create_employee_row name w).1 = .ok row) :
    (scanRows (empScanP name) (colValues w 2) 1 = some row ∧ 6 ≤ row ∧
        row ≤ (colValues w 2).length ∧
        get_or_create_employee_row name w = (.ok row, w, [])) ∨
    (scanRows (empScanP name) (colValues w 2) 1 = none ∧
        row = (if (colValues w 2).length + 1 < 6 then 6 else (colValues w 2).length + 1) ∧
        (colValues w 2).length < row ∧ 6 ≤ row ∧ row ≤ 75 ∧
        get_or_create_employee_row name w = (.ok row, setCell w row 2 name, [(row, 2, name)])) := by
  cases hscan : scanRows (empScanP name) (colValues w 2) 1 with
  | some idx =>
    left
    have he := emp_row_found name w idx hscan
    rw [he] at h
    have h' : (Except.ok idx : Except Err Nat) = .ok row := h
    have hir : idx = row := by injection h'
    subst hir
    obtain ⟨h1, h2, h3, _⟩ :=
      (scanRows_eq_some_iff (empScanP name) (colValues w 2) 1 idx).mp hscan
    unfold empScanP at h3
    rw [Bool.and_eq_true, decide_eq_true_iff] at h3
    exact ⟨rfl, by omega, by omega, he⟩
  | none =>
    right
    by_cases hcap : (if (colValues w 2).length + 1 < 6 then 6
        else (colValues w 2).length + 1) > 75
    · exfalso
      have he := emp_row_cap name w hscan hcap
      rw [he] at h
      exact Except.noConfusion h
    · have he := emp_row_alloc name w hscan hcap
      rw [he] at h
      have h' : (Except.ok (if (colValues w 2).length + 1 < 6 then 6
          else (colValues w 2).length + 1) : Except Err Nat) = .ok row := h
      have hir : (if (colValues w 2).length + 1 < 6 then 6
          else (colValues w 2).length + 1) = row := by injection h'
      subst hir
      refine ⟨rfl, rfl, ?_, ?_, by omega, he⟩
      · split <;> omega
      · split <;> omega

theorem ger_error_shape (name : String) (w : Worksheet) (e : Err)
    (h : (get_or_create_employee_row name w).1 = .error e) : e = .capacityExceeded := by
  cases hscan : scanRows (empScanP name) (colValues w 2) 1 with
  | some idx =>
    rw [emp_row_found name w idx hscan] at h
    exact Except.noConfusion h
  | none =>
    by_cases hcap : (if (colValues w 2).length + 1 < 6 then 6
        else (colValues w 2).length + 1) > 75
    · rw [emp_row_cap name w hscan hcap] at h
      have h' : (Except.error Err.capacityExceeded : Except Err Nat) = .error e := h
      have : Err.capacityExceeded = e := by injection h'
      exact this.symm
    · rw [emp_row_alloc name w hscan hcap] at h
      exact Except.noConfusion h

/-! ## Lemmas: the invariant is preserved by every write the engine issues -/

theorem WsInv_date_alloc (w : Worksheet) (df : String) (hdfe : df ≠ "") (hdfH : df ≠ "HOURS")
    (hinv : WsInv w) (hs : scanRows (dateScanP df) (rowValues w 5) 1 = none) :
    WsInv (applyWrites w (dateColWrites ((rowValues w 5).length + 1)
      ((rowValues w 5).length + 1 + 1) df)) := by
  have hb := hinv.bounded
  have hL2 : 2 ≤ (rowValues w 5).length := by
    by_contra hlt
    push_neg at hlt
    have := getCell_beyond_row w 5 2 hb (by omega) (by omega)
    rw [hinv.b5] at this
    exact absurd this (by decide)
  have hre := date_rescan w df hdfe hdfH hb ((rowValues w 5).length)
    ((rowValues w 5).length + 1) rfl (by rw [if_neg (by omega)]) hs
  refine ⟨?_, ?_, ?_, ?_, ?_, ?_, ?_, ?_⟩
  · exact applyWrites_bounded _ w hb
  · rw [getCell_dcw_other w ((rowValues w 5).length + 1)
      ((rowValues w 5).length + 1 + 1) df 6 1 (by omega) (by omega)]
    exact hinv.a6
  · rw [getCell_dcw_other w ((rowValues w 5).length + 1)
      ((rowValues w 5).length + 1 + 1) df 5 2 (by omega) (by omega)]
    exact hinv.b5
  · rw [hre.1]
    have := hinv.len5_even
    omega
  · intro c h3 hle hodd
    rw [hre.1] at hle
    by_cases hc1 : c = (rowValues w 5).length + 1
    · rw [hc1]
      exact getCell_dcw_hours w ((rowValues w 5).length + 1) df
    · have hc2 : c ≠ (rowValues w 5).length + 1 + 1 := by
        have := hinv.len5_even
        omega
      rw [getCell_dcw_row5_other w ((rowValues w 5).length + 1)
        ((rowValues w 5).length + 1 + 1) df c hc1 hc2]
      exact hinv.hoursHdr c h3 (by omega) hodd
  · intro r c hgt
    rw [hre.1] at hgt
    rw [getCell_dcw_other w ((rowValues w 5).length + 1)
      ((rowValues w 5).length + 1 + 1) df r c (by omega) (by omega)]
    exact hinv.colsBound r c (by omega)
  · intro r h6 hle
    have hcv : colValues (applyWrites w (dateColWrites ((rowValues w 5).length + 1)
        ((rowValues w 5).length + 1 + 1) df)) 2 = colValues w 2 := by
      apply colValues_applyWrites_avoid _ _ _ hb
      intro e he
      rcases dateColWrites_mem ((rowValues w 5).length + 1)
        ((rowValues w 5).length + 1 + 1) df e he with h | h <;> omega
    rw [hcv] at hle
    rw [getCell_dcw_col2 w ((rowValues w 5).length + 1)
      ((rowValues w 5).length + 1 + 1) df r (by omega) (by omega)]
    exact hinv.namesFilled r h6 hle
  · intro r c h6 hhdr hne
    by_cases hc1 : c = (rowValues w 5).length + 1
    · exfalso
      rw [hc1, getCell_dcw_data_rows w ((rowValues w 5).length + 1)
        ((rowValues w 5).length + 1 + 1) df r ((rowValues w 5).length + 1) h6
        (by omega)] at hne
      exact hne (hinv.colsBound r ((rowValues w 5).length + 1) (by omega))
    · by_cases hc2 : c = (rowValues w 5).length + 1 + 1
      · rw [hc2, getCell_dcw_date w ((rowValues w 5).length + 1) df] at hhdr
        exact absurd hhdr hdfH
      · rw [getCell_dcw_row5_other w ((rowValues w 5).length + 1)
          ((rowValues w 5).length + 1 + 1) df c hc1 hc2] at hhdr
        rw [getCell_dcw_data_rows w ((rowValues w 5).length + 1)
          ((rowValues w 5).length + 1 + 1) df r c h6 hc2] at hne
        rw [getCell_dcw_col2 w ((rowValues w 5).length + 1)
          ((rowValues w 5).length + 1 + 1) df r (by omega) (by omega)]
        exact hinv.hoursNeedName r c h6 hhdr hne

theorem WsInv_emp_alloc (w : Worksheet) (name : String) (hn : name ≠ "") (hinv : WsInv w)
    (nr : Nat)
    (hnr : nr = if (colValues w 2).length + 1 < 6 then 6 else (colValues w 2).length + 1)
    (hs : scanRows (empScanP name) (colValues w 2) 1 = none) :
    WsInv (setCell w nr 2 name) := by
  have hb := hinv.bounded
  have hcase : (nr = 6 ∧ (colValues w 2).length + 1 ≤ 6) ∨
      (nr = (colValues w 2).length + 1 ∧ 6 ≤ (colValues w 2).length + 1) := by
    rw [hnr]
    split
    · rename_i hlt
      exact Or.inl ⟨rfl, by omega⟩
    · rename_i hge
      exact Or.inr ⟨rfl, by omega⟩
  have hnr6 : 6 ≤ nr ∧ (colValues w 2).length + 1 ≤ nr := by
    rcases hcase with ⟨h1, h2⟩ | ⟨h1, h2⟩ <;> omega
  have hL2 : 2 ≤ (rowValues w 5).length := by
    by_contra hlt
    push_neg at hlt
    have := getCell_beyond_row w 5 2 hb (by omega) (by omega)
    rw [hinv.b5] at this
    exact absurd this (by decide)
  have hre := emp_rescan w name name hn rfl hb ((colValues w 2).length) nr rfl hnr hs
  have hcell : ∀ r' c', getCell (setCell w nr 2 name) r' c'
      = if r' = nr ∧ c' = 2 then name else getCell w r' c' :=
    fun r' c' => getCell_setCell w nr 2 r' c' name
  have hrow5 : rowValues (setCell w nr 2 name) 5 = rowValues w 5 :=
    rowValues_setCell_avoid w nr 2 name 5 hb (by omega)
  refine ⟨?_, ?_, ?_, ?_, ?_, ?_, ?_, ?_⟩
  · exact setCell_bounded w nr 2 name hb
  · rw [hcell 6 1, if_neg (by omega)]
    exact hinv.a6
  · rw [hcell 5 2, if_neg (by omega)]
    exact hinv.b5
  · rw [hrow5]
    exact hinv.len5_even
  · intro c h3 hle hodd
    rw [hrow5] at hle
    rw [hcell 5 c, if_neg (by omega)]
    exact hinv.hoursHdr c h3 hle hodd
  · intro r c hgt
    rw [hrow5] at hgt
    rw [hcell r c, if_neg (by omega)]
    exact hinv.colsBound r c hgt
  · intro r h6 hle
    rw [hre.1] at hle
    rw [hcell r 2]
    by_cases hr : r = nr
    · rw [if_pos ⟨hr, rfl⟩]
      exact hn
    · rw [if_neg (fun hcon => hr hcon.1)]
      exact hinv.namesFilled r h6 (by rcases hcase with ⟨h1, h2⟩ | ⟨h1, h2⟩ <;> omega)
  · intro r c h6 hhdr hne
    have hc2 : c ≠ 2 := by
      intro hc
      rw [hc, hcell 5 2, if_neg (by omega), hinv.b5] at hhdr
      exact absurd hhdr (by decide)
    rw [hcell r c, if_neg (fun hcon => hc2 hcon.2)] at hne
    rw [hcell 5 c, if_neg (by omega)] at hhdr
    rw [hcell r 2]
    by_cases hr : r = nr
    · rw [if_pos ⟨hr, rfl⟩]
      exact hn
    · rw [if_neg (fun hcon => hr hcon.1)]
      exact hinv.hoursNeedName r c h6 hhdr hne

theorem WsInv_cell_write (w : Worksheet) (row hc : Nat) (v : String)
    (hinv : WsInv w) (hr6 : 6 ≤ row) (hc3 : 3 ≤ hc)
    (hhdr : getCell w 5 hc = "HOURS") (hname : getCell w row 2 ≠ "") :
    WsInv (setCell w row hc v) := by
  have hb := hinv.bounded
  have hclen : hc ≤ (rowValues w 5).length := by
    by_contra hlt
    push_neg at hlt
    have := getCell_beyond_row w 5 hc hb (by omega) hlt
    rw [hhdr] at this
    exact absurd this (by decide)
  have hcell : ∀ r' c', getCell (setCell w row hc v) r' c'
      = if r' = row ∧ c' = hc then v else getCell w r' c' :=
    fun r' c' => getCell_setCell w row hc r' c' v
  have hrow5 : rowValues (setCell w row hc v) 5 = rowValues w 5 :=
    rowValues_setCell_avoid w row hc v 5 hb (by omega)
  have hcol2 : colValues (setCell w row hc v) 2 = colValues w 2 :=
    colValues_setCell_avoid w row hc v 2 hb (by omega)
  refine ⟨?_, ?_, ?_, ?_, ?_, ?_, ?_, ?_⟩
  · exact setCell_bounded w row hc v hb
  · rw [hcell 6 1, if_neg (by omega)]
    exact hinv.a6
  · rw [hcell 5 2, if_neg (by omega)]
    exact hinv.b5
  · rw [hrow5]
    exact hinv.len5_even
  · intro c h3 hle hodd
    rw [hrow5] at hle
    rw [hcell 5 c, if_neg (by omega)]
    exact hinv.hoursHdr c h3 hle hodd
  · intro r c hgt
    rw [hrow5] at hgt
    rw [hcell r c, if_neg (by omega)]
    exact hinv.colsBound r c hgt
  · intro r h6 hle
    rw [hcol2] at hle
    rw [hcell r 2, if_neg (by omega)]
    exact hinv.namesFilled r h6 hle
  · intro r c h6 hhdr' hne
    rw [hcell 5 c, if_neg (by omega)] at hhdr'
    rw [hcell r 2, if_neg (by omega)]
    by_cases hrc : r = row ∧ c = hc
    · rw [hrc.1]
      exact hname
    · rw [hcell r c, if_neg hrc] at hne
      exact hinv.hoursNeedName r c h6 hhdr' hne

theorem WsInv_row2_write (w : Worksheet) (dc : Nat) (v : String) (hinv : WsInv w)
    (hdc3 : 3 ≤ dc) (hdclen : dc ≤ (rowValues w 5).length) :
    WsInv (setCell w 2 dc v) := by
  have hb := hinv.bounded
  have hcell : ∀ r' c', getCell (setCell w 2 dc v) r' c'
      = if r' = 2 ∧ c' = dc then v else getCell w r' c' :=
    fun r' c' => getCell_setCell w 2 dc r' c' v
  have hrow5 : rowValues (setCell w 2 dc v) 5 = rowValues w 5 :=
    rowValues_setCell_avoid w 2 dc v 5 hb (by omega)
  have hcol2 : colValues (setCell w 2 dc v) 2 = colValues w 2 :=
    colValues_setCell_avoid w 2 dc v 2 hb (by omega)
  refine ⟨?_, ?_, ?_, ?_, ?_, ?_, ?_, ?_⟩
  · exact setCell_bounded w 2 dc v hb
  · rw [hcell 6 1, if_neg (by omega)]
    exact hinv.a6
  · rw [hcell 5 2, if_neg (by omega)]
    exact hinv.b5
  · rw [hrow5]
    exact hinv.len5_even
  · intro c h3 hle hodd
    rw [hrow5] at hle
    rw [hcell 5 c, if_neg (by omega)]
    exact hinv.hoursHdr c h3 hle hodd
  · intro r c hgt
    rw [hrow5] at hgt
    rw [hcell r c, if_neg (by omega)]
    exact hinv.colsBound r c hgt
  · intro r h6 hle
    rw [hcol2] at hle
    rw [hcell r 2, if_neg (by omega)]
    exact hinv.namesFilled r h6 hle
  · intro r c h6 hhdr' hne
    rw [hcell 5 c, if_neg (by omega)] at hhdr'
    rw [hcell r c, if_neg (by omega)] at hne
    rw [hcell r 2, if_neg (by omega)]
    exact hinv.hoursNeedName r c h6 hhdr' hne

theorem gdc_inv (d : Date) (w : Worksheet) (hinv : WsInv w) :
    WsInv (get_or_create_date_column d w).2.1 := by
  rcases date_res_cases d w hinv with ⟨idx, hsd, hde, _, _, _, _⟩ | ⟨hsd, hde, _, _⟩
  · rw [hde]
    exact hinv
  · rw [hde]
    exact WsInv_date_alloc w (formatDMY d) (formatDMY_ne_empty d) (formatDMY_ne_hours d)
      hinv hsd

theorem ger_inv (name : String) (w : Worksheet) (hn : name ≠ "") (hinv : WsInv w) :
    WsInv (get_or_create_employee_row name w).2.1 := by
  cases hscan : scanRows (empScanP name) (colValues w 2) 1 with
  | some idx =>
    rw [emp_row_found name w idx hscan]
    exact hinv
  | none =>
    by_cases hcap : (if (colValues w 2).length + 1 < 6 then 6
        else (colValues w 2).length + 1) > 75
    · rw [emp_row_cap name w hscan hcap]
      exact hinv
    · rw [emp_row_alloc name w hscan hcap]
      exact WsInv_emp_alloc w name hn hinv _ rfl hscan

theorem gdc_dc_bounds (d : Date) (w : Worksheet) (hinv : WsInv w) :
    3 ≤ (get_or_create_date_column d w).1.1 + 1 ∧
    (get_or_create_date_column d w).1.1 + 1
      ≤ (rowValues (get_or_create_date_column d w).2.1 5).length := by
  rcases date_res_cases d w hinv with ⟨idx, hsd, hde, hi4, hilen, hieven, hih⟩ |
    ⟨hsd, hde, h3, hlenW⟩
  · rw [hde]
    dsimp only
    exact ⟨by omega, by omega⟩
  · rw [hde]
    dsimp only
    exact ⟨by omega, le_of_eq hlenW.symm⟩

/-! ## Lemmas: facts about the resolved target cell -/

theorem resolve_target_facts (w : Worksheet) (name : String) (d : Date)
    (hn : name ≠ "") (hinv : WsInv w) (row : Nat)
    (herr : (get_or_create_employee_row name (get_or_create_date_column d w).2.1).1
      = .ok row) :
    WsInv (get_or_create_employee_row name (get_or_create_date_column d w).2.1).2.1 ∧
    6 ≤ row ∧ 3 ≤ (get_or_create_date_column d w).1.1 ∧
    getCell (get_or_create_employee_row name (get_or_create_date_column d w).2.1).2.1 5
        (get_or_create_date_column d w).1.1 = "HOURS" ∧
    getCell (get_or_create_employee_row name (get_or_create_date_column d w).2.1).2.1 row 2
      ≠ "" := by
  rcases date_res_cases d w hinv with ⟨idx, hsd, hde, hi4, hilen, hieven, hih⟩ |
    ⟨hsd, hde, h3, hlenW⟩
  · rw [hde] at herr ⊢
    dsimp only at herr ⊢
    rcases emp_ok_cases name w row herr with ⟨hse, hr6, hrlen, hee⟩ |
      ⟨hse, hrv, hrgt, hr6, hr75, hee⟩
    · rw [hee]
      dsimp only
      exact ⟨hinv, hr6, by omega, hih, hinv.namesFilled row hr6 hrlen⟩
    · rw [hee]
      dsimp only
      refine ⟨?_, hr6, by omega, ?_, ?_⟩
      · rw [hrv]
        exact WsInv_emp_alloc w name hn hinv _ rfl hse
      · rw [getCell_setCell w row 2 5 (idx - 1) name, if_neg (by omega)]
        exact hih
      · rw [getCell_setCell w row 2 row 2 name, if_pos ⟨rfl, rfl⟩]
        exact hn
  · rw [hde] at herr ⊢
    dsimp only at herr ⊢
    have hWinv : WsInv (applyWrites w (dateColWrites ((rowValues w 5).length + 1)
        ((rowValues w 5).length + 1 + 1) (formatDMY d))) :=
      WsInv_date_alloc w (formatDMY d) (formatDMY_ne_empty d) (formatDMY_ne_hours d) hinv hsd
    rcases emp_ok_cases name (applyWrites w (dateColWrites ((rowValues w 5).length + 1)
        ((rowValues w 5).length + 1 + 1) (formatDMY d))) row herr with
      ⟨hse, hr6, hrlen, hee⟩ | ⟨hse, hrv, hrgt, hr6, hr75, hee⟩
    · rw [hee]
      dsimp only
      refine ⟨hWinv, hr6, by omega, ?_, ?_⟩
      · exact getCell_dcw_hours w ((rowValues w 5).length + 1) (formatDMY d)
      · exact hWinv.namesFilled row hr6 hrlen
    · rw [hee]
      dsimp only
      refine ⟨?_, hr6, by omega, ?_, ?_⟩
      · rw [hrv]
        exact WsInv_emp_alloc _ name hn hWinv _ rfl hse
      · rw [getCell_setCell _ row 2 5 ((rowValues w 5).length + 1) name, if_neg (by omega)]
        exact getCell_dcw_hours w ((rowValues w 5).length + 1) (formatDMY d)
      · rw [getCell_setCell _ row 2 row 2 name, if_pos ⟨rfl, rfl⟩]
        exact hn

/-- If the duplicate check can see a non-empty target cell, then nothing was
allocated on the way there: the date scan and the employee scan both hit,
both resolution calls return the worksheet unchanged with no writes, and
the non-empty cell sits at a `HOURS` column of the original sheet. -/
theorem dup_situation (w : Worksheet) (name : String) (d : Date) (hinv : WsInv w)
    (row : Nat)
    (herr : (get_or_create_employee_row name (get_or_create_date_column d w).2.1).1 = .ok row)
    (hcell : pyStrip (getCell (get_or_create_employee_row name
        (get_or_create_date_column d w).2.1).2.1 row
        (get_or_create_date_column d w).1.1) ≠ "") :
    scanRows (dateScanP (formatDMY d)) (rowValues w 5) 1
        = some ((get_or_create_date_column d w).1.1 + 1) ∧
    get_or_create_date_column d w = (((get_or_create_date_column d w).1.1, false), w, []) ∧
    get_or_create_employee_row name w = (.ok row, w, []) ∧
    3 ≤ (get_or_create_date_column d w).1.1 ∧
    getCell w 5 (get_or_create_date_column d w).1.1 = "HOURS" ∧ 6 ≤ row ∧
    pyStrip (getCell w row (get_or_create_date_column d w).1.1) ≠ "" := by
  rcases date_res_cases d w hinv with ⟨idx, hsd, hde, hi4, hilen, hieven, hih⟩ |
    ⟨hsd, hde, h3, hlenW⟩
  · rw [hde] at herr hcell ⊢
    dsimp only at herr hcell ⊢
    have hidx : idx - 1 + 1 = idx := by omega
    rcases emp_ok_cases name w row herr with ⟨hse, hr6, hrlen, hee⟩ |
      ⟨hse, hrv, hrgt, hr6, hr75, hee⟩
    · rw [hee] at hcell
      dsimp only at hcell
      refine ⟨by rw [hidx]; exact hsd, rfl, hee, by omega, hih, hr6, hcell⟩
    · exfalso
      rw [hee] at hcell
      dsimp only at hcell
      rw [getCell_setCell w row 2 row (idx - 1) name, if_neg (by omega)] at hcell
      have hrow2 : getCell w row 2 = "" :=
        getCell_beyond_col w 2 row hinv.bounded (by omega) (by omega)
      have hcw : getCell w row (idx - 1) = "" := by
        by_contra hc
        exact (hinv.hoursNeedName row (idx - 1) hr6 hih hc) hrow2
      rw [hcw] at hcell
      exact hcell rfl
  · exfalso
    rw [hde] at herr hcell
    dsimp only at herr hcell
    rcases emp_ok_cases name (applyWrites w (dateColWrites ((rowValues w 5).length + 1)
        ((rowValues w 5).length + 1 + 1) (formatDMY d))) row herr with
      ⟨hse, hr6, hrlen, hee⟩ | ⟨hse, hrv, hrgt, hr6, hr75, hee⟩
    · rw [hee] at hcell
      dsimp only at hcell
      rw [getCell_dcw_data_rows w ((rowValues w 5).length + 1)
        ((rowValues w 5).length + 1 + 1) (formatDMY d) row ((rowValues w 5).length + 1)
        hr6 (by omega)] at hcell
      rw [hinv.colsBound row ((rowValues w 5).length + 1) (by omega)] at hcell
      exact hcell rfl
    · rw [hee] at hcell
      dsimp only at hcell
      rw [getCell_setCell _ row 2 row ((rowValues w 5).length + 1) name,
        if_neg (by omega)] at hcell
      rw [getCell_dcw_data_rows w ((rowValues w 5).length + 1)
        ((rowValues w 5).length + 1 + 1) (formatDMY d) row ((rowValues w 5).length + 1)
        hr6 (by omega)] at hcell
      rw [hinv.colsBound row ((rowValues w 5).length + 1) (by omega)] at hcell
      exact hcell rfl

/-- Evaluation of `submit_hours` when the month sheet exists, both scans
hit and the target cell is non-empty: the duplicate error is raised, the
store is unchanged and no event is issued. -/
theorem dup_outcome (st : Spreadsheet) (name : String) (d : Date) (hours : ℚ)
    (w : Worksheet) (hc row : Nat)
    (hlk : lookupSheet st (monthSheetName d) = some w)
    (ha6 : getCell w 6 1 = "1") (hb5 : getCell w 5 2 = hebrewHeader)
    (hgdc : get_or_create_date_column d w = ((hc, false), w, []))
    (hger : get_or_create_employee_row name w = (.ok row, w, []))
    (hcell : pyStrip (getCell w row hc) ≠ "") :
    submit_hours st name d hours = (.error (.duplicateEntry name (formatDMY d)), st, []) := by
  obtain ⟨hms1, hms2, hms3, hms4⟩ := month_sheet_existing st d w hlk ha6 hb5
  have hcne : getCell w row hc ≠ "" := by
    intro he
    rw [he] at hcell
    exact hcell rfl
  have hput : putSheet (get_or_create_month_sheet st d) st w = st := by
    unfold putSheet
    rw [hms3, hms2, if_neg Bool.false_ne_true]
    exact storeSheet_self st (monthSheetName d) w hlk
  simp only [submit_hours, hms1, hms3, hms4, hgdc, hger]
  rw [if_pos ⟨hcne, hcell⟩, hput]
  simp [evOf]

/-- `submit_hours` returns the duplicate error only out of the duplicate
branch: the employee row resolved to `.ok` and the resolved cell was
non-empty after stripping. -/
theorem submit_dup_inv (st : Spreadsheet) (name : String) (d : Date) (hours : ℚ)
    (who fd : String)
    (h : (submit_hours st name d hours).1 = .error (.duplicateEntry who fd)) :
    ∃ row, (get_or_create_employee_row name
        (get_or_create_date_column d (get_or_create_month_sheet st d).ws).2.1).1
          = .ok row ∧
      pyStrip (getCell (get_or_create_employee_row name
          (get_or_create_date_column d (get_or_create_month_sheet st d).ws).2.1).2.1 row
          (get_or_create_date_column d (get_or_create_month_sheet st d).ws).1.1) ≠ "" := by
  cases herr : (get_or_create_employee_row name
      (get_or_create_date_column d (get_or_create_month_sheet st d).ws).2.1).1 with
  | error e =>
    exfalso
    have hcap := ger_error_shape name _ e herr
    subst hcap
    simp only [submit_hours, herr] at h
    have h' : (Except.error Err.capacityExceeded : Except Err SubmitOutcome)
        = .error (.duplicateEntry who fd) := h
    have hco : Err.capacityExceeded = .duplicateEntry who fd := by injection h'
    exact Err.noConfusion hco
  | ok row =>
    refine ⟨row, rfl, ?_⟩
    by_cases hex : getCell (get_or_create_employee_row name
        (get_or_create_date_column d (get_or_create_month_sheet st d).ws).2.1).2.1 row
        (get_or_create_date_column d (get_or_create_month_sheet st d).ws).1.1 ≠ "" ∧
        pyStrip (getCell (get_or_create_employee_row name
          (get_or_create_date_column d (get_or_create_month_sheet st d).ws).2.1).2.1 row
          (get_or_create_date_column d (get_or_create_month_sheet st d).ws).1.1) ≠ ""
    · exact hex.2
    · exfalso
      simp only [submit_hours, herr] at h
      rw [if_neg hex] at h
      have h' : (Except.ok (⟨row,
          (get_or_create_date_column d (get_or_create_month_sheet st d).ws).1.1,
          (get_or_create_date_column d (get_or_create_month_sheet st d).ws).1.2⟩
            : SubmitOutcome) : Except Err SubmitOutcome)
          = .error (.duplicateEntry who fd) := h
      exact Except.noConfusion h'

/-- Evaluation shape of a successful `submit_hours`: the returned outcome
carries the resolved row and hours column, and the new store holds the
month sheet with the hours value written at that cell. -/
theorem submit_ok_shape (st : Spreadsheet) (name : String) (d : Date) (hours : ℚ)
    (out : SubmitOutcome) (h : (submit_hours st name d hours).1 = .ok out) :
    ∃ row, (get_or_create_employee_row name
        (get_or_create_date_column d (get_or_create_month_sheet st d).ws).2.1).1
          = .ok row ∧
      out.row = row ∧
      out.hoursCol = (get_or_create_date_column d (get_or_create_month_sheet st d).ws).1.1 ∧
      (submit_hours st name d hours).2.1
        = putSheet (get_or_create_month_sheet st d) st
            (setCell (get_or_create_employee_row name
                (get_or_create_date_column d (get_or_create_month_sheet st d).ws).2.1).2.1
              row (get_or_create_date_column d (get_or_create_month_sheet st d).ws).1.1
              (numCell hours)) := by
  cases herr : (get_or_create_employee_row name
      (get_or_create_date_column d (get_or_create_month_sheet st d).ws).2.1).1 with
  | error e =>
    exfalso
    simp only [submit_hours, herr] at h
    have h' : (Except.error e : Except Err SubmitOutcome) = .ok out := h
    exact Except.noConfusion h'
  | ok row =>
    by_cases hex : getCell (get_or_create_employee_row name
        (get_or_create_date_column d (get_or_create_month_sheet st d).ws).2.1).2.1 row
        (get_or_create_date_column d (get_or_create_month_sheet st d).ws).1.1 ≠ "" ∧
        pyStrip (getCell (get_or_create_employee_row name
          (get_or_create_date_column d (get_or_create_month_sheet st d).ws).2.1).2.1 row
          (get_or_create_date_column d (get_or_create_month_sheet st d).ws).1.1) ≠ ""
    · exfalso
      simp only [submit_hours, herr] at h
      rw [if_pos hex] at h
      have h' : (Except.error (Err.duplicateEntry name (formatDMY d))
          : Except Err SubmitOutcome) = .ok out := h
      exact Except.noConfusion h'
    · have hout : out = ⟨row,
          (get_or_create_date_column d (get_or_create_month_sheet st d).ws).1.1,
          (get_or_create_date_column d (get_or_create_month_sheet st d).ws).1.2⟩ := by
        simp only [submit_hours, herr] at h
        rw [if_neg hex] at h
        have h' : (Except.ok (⟨row,
            (get_or_create_date_column d (get_or_create_month_sheet st d).ws).1.1,
            (get_or_create_date_column d (get_or_create_month_sheet st d).ws).1.2⟩
              : SubmitOutcome) : Except Err SubmitOutcome) = .ok out := h
        have h'' : (⟨row,
            (get_or_create_date_column d (get_or_create_month_sheet st d).ws).1.1,
            (get_or_create_date_column d (get_or_create_month_sheet st d).ws).1.2⟩
              : SubmitOutcome) = out := by injection h'
        exact h''.symm
      have hst : (submit_hours st name d hours).2.1
          = putSheet (get_or_create_month_sheet st d) st
              (setCell (get_or_create_employee_row name
                  (get_or_create_date_column d (get_or_create_month_sheet st d).ws).2.1).2.1
                row (get_or_create_date_column d (get_or_create_month_sheet st d).ws).1.1
                (numCell hours)) := by
        simp only [submit_hours, herr]
        rw [if_neg hex]
      refine ⟨row, rfl, ?_, ?_, hst⟩
      · rw [hout]
      · rw [hout]

theorem lookupSheet_putSheet (st : Spreadsheet) (d : Date) (w' : Worksheet) :
    lookupSheet (putSheet (get_or_create_month_sheet st d) st w') (monthSheetName d)
      = some w' := by
  cases hlk : lookupSheet st (monthSheetName d) with
  | some w =>
    have hcr : (get_or_create_month_sheet st d).created = false ∧
        (get_or_create_month_sheet st d).name = monthSheetName d := by
      simp only [get_or_create_month_sheet, hlk]
      split
      · exact ⟨by first | rfl | trivial, by first | rfl | trivial⟩
      · exact ⟨by first | rfl | trivial, by first | rfl | trivial⟩
    unfold putSheet
    rw [hcr.1, hcr.2, if_neg Bool.false_ne_true]
    exact lookupSheet_storeSheet_hit st (monthSheetName d) w w' hlk
  | none =>
    have hcr : (get_or_create_month_sheet st d).created = true ∧
        (get_or_create_month_sheet st d).name = monthSheetName d := by
      simp only [get_or_create_month_sheet, hlk]
      exact ⟨by first | rfl | trivial, by first | rfl | trivial⟩
    unfold putSheet
    rw [hcr.1, hcr.2, if_pos rfl]
    exact lookupSheet_addSheet st (monthSheetName d) w' hlk

/-- After any allocations a successful submission performed and the final
hours write, re-resolving the same date and the same employee on the
stored worksheet finds exactly the pair of indices the first call used. -/
theorem resolve_stable (w : Worksheet) (name : String) (d : Date) (hn : name ≠ "")
    (hinv : WsInv w) (row : Nat) (v : String)
    (herr : (get_or_create_employee_row name (get_or_create_date_column d w).2.1).1
      = .ok row) :
    scanRows (dateScanP (formatDMY d))
        (rowValues (setCell (get_or_create_employee_row name
          (get_or_create_date_column d w).2.1).2.1 row
          (get_or_create_date_column d w).1.1 v) 5) 1
      = some ((get_or_create_date_column d w).1.1 + 1) ∧
    scanRows (empScanP name)
        (colValues (setCell (get_or_create_employee_row name
          (get_or_create_date_column d w).2.1).2.1 row
          (get_or_create_date_column d w).1.1 v) 2) 1
      = some row := by
  obtain ⟨hw3inv, hr6, hhc3, _, _⟩ := resolve_target_facts w name d hn hinv row herr
  rw [rowValues_setCell_avoid _ row _ v 5 hw3inv.bounded (by omega),
    colValues_setCell_avoid _ row _ v 2 hw3inv.bounded (by omega)]
  rcases date_res_cases d w hinv with ⟨idx, hsd, hde, hi4, hilen, hieven, hih⟩ |
    ⟨hsd, hde, h3, hlenW⟩
  · rw [hde] at herr ⊢
    dsimp only at herr ⊢
    have hidx : idx - 1 + 1 = idx := by omega
    rcases emp_ok_cases name w row herr with ⟨hse, hr6', hrlen, hee⟩ |
      ⟨hse, hrv, hrgt, hr6', hr75, hee⟩
    · rw [hee]
      dsimp only
      exact ⟨by rw [hidx]; exact hsd, hse⟩
    · rw [hee]
      dsimp only
      constructor
      · rw [rowValues_setCell_avoid w row 2 name 5 hinv.bounded (by omega), hidx]
        exact hsd
      · rw [hrv]
        exact (emp_rescan w name name hn rfl hinv.bounded ((colValues w 2).length) _
          rfl rfl hse).2
  · rw [hde] at herr ⊢
    dsimp only at herr ⊢
    have hre := date_rescan w (formatDMY d) (formatDMY_ne_empty d) (formatDMY_ne_hours d)
      hinv.bounded ((rowValues w 5).length) ((rowValues w 5).length + 1) rfl
      (by rw [if_neg (by omega)]) hsd
    rcases emp_ok_cases name (applyWrites w (dateColWrites ((rowValues w 5).length + 1)
        ((rowValues w 5).length + 1 + 1) (formatDMY d))) row herr with
      ⟨hse, hr6', hrlen, hee⟩ | ⟨hse, hrv, hrgt, hr6', hr75, hee⟩
    · rw [hee]
      dsimp only
      exact ⟨hre.2, hse⟩
    · rw [hee]
      dsimp only
      constructor
      · rw [rowValues_setCell_avoid (applyWrites w (dateColWrites
          ((rowValues w 5).length + 1) ((rowValues w 5).length + 1 + 1) (formatDMY d)))
          row 2 name 5 (applyWrites_bounded _ w hinv.bounded) (by omega)]
        exact hre.2
      · rw [hrv]
        exact (emp_rescan (applyWrites w (dateColWrites ((rowValues w 5).length + 1)
            ((rowValues w 5).length + 1 + 1) (formatDMY d))) name name hn rfl
          (applyWrites_bounded _ w hinv.bounded)
          ((colValues (applyWrites w (dateColWrites ((rowValues w 5).length + 1)
            ((rowValues w 5).length + 1 + 1) (formatDMY d))) 2).length) _ rfl rfl hse).2

/-! ## Lemmas: the structural invariant is preserved by the engine -/

theorem submit_hours_preserves (st : Spreadsheet) (name : String) (d : Date) (hours : ℚ)
    (hn : name ≠ "") (hsp : SpInv st) : SpInv (submit_hours st name d hours).2.1 := by
  have hws : WsInv (get_or_create_month_sheet st d).ws := gms_inv st d hsp
  cases herr : (get_or_create_employee_row name
      (get_or_create_date_column d (get_or_create_month_sheet st d).ws).2.1).1 with
  | error e =>
    have hst : (submit_hours st name d hours).2.1
        = putSheet (get_or_create_month_sheet st d) st
            (get_or_create_employee_row name
              (get_or_create_date_column d (get_or_create_month_sheet st d).ws).2.1).2.1 := by
      simp only [submit_hours, herr]
    rw [hst]
    exact SpInv_putSheet _ st _ hsp (ger_inv name _ hn (gdc_inv d _ hws))
  | ok row =>
    by_cases hex : getCell (get_or_create_employee_row name
        (get_or_create_date_column d (get_or_create_month_sheet st d).ws).2.1).2.1 row
        (get_or_create_date_column d (get_or_create_month_sheet st d).ws).1.1 ≠ "" ∧
        pyStrip (getCell (get_or_create_employee_row name
          (get_or_create_date_column d (get_or_create_month_sheet st d).ws).2.1).2.1 row
          (get_or_create_date_column d (get_or_create_month_sheet st d).ws).1.1) ≠ ""
    · have hst : (submit_hours st name d hours).2.1
          = putSheet (get_or_create_month_sheet st d) st
              (get_or_create_employee_row name
                (get_or_create_date_column d (get_or_create_month_sheet st d).ws).2.1).2.1 := by
        simp only [submit_hours, herr]
        rw [if_pos hex]
      rw [hst]
      exact SpInv_putSheet _ st _ hsp (ger_inv name _ hn (gdc_inv d _ hws))
    · have hst : (submit_hours st name d hours).2.1
          = putSheet (get_or_create_month_sheet st d) st
              (setCell (get_or_create_employee_row name
                  (get_or_create_date_column d (get_or_create_month_sheet st d).ws).2.1).2.1
                row (get_or_create_date_column d (get_or_create_month_sheet st d).ws).1.1
                (numCell hours)) := by
        simp only [submit_hours, herr]
        rw [if_neg hex]
      rw [hst]
      obtain ⟨hw3, hr6, hhc3, hhdr, hname⟩ :=
        resolve_target_facts (get_or_create_month_sheet st d).ws name d hn hws row herr
      exact SpInv_putSheet _ st _ hsp
        (WsInv_cell_write _ row _ (numCell hours) hw3 hr6 hhc3 hhdr hname)

theorem submit_tips_preserves (st : Spreadsheet) (d : Date) (q : ℚ) (hsp : SpInv st) :
    SpInv (submit_daily_tips st d q).2.1 := by
  have hws : WsInv (get_or_create_month_sheet st d).ws := gms_inv st d hsp
  have hst : (submit_daily_tips st d q).2.1
      = putSheet (get_or_create_month_sheet st d) st
          (setCell (get_or_create_date_column d (get_or_create_month_sheet st d).ws).2.1 2
            ((get_or_create_date_column d (get_or_create_month_sheet st d).ws).1.1 + 1)
            (numCell q)) := by
    simp only [submit_daily_tips]
  rw [hst]
  obtain ⟨hb1, hb2⟩ := gdc_dc_bounds d (get_or_create_month_sheet st d).ws hws
  exact SpInv_putSheet _ st _ hsp
    (WsInv_row2_write _ _ (numCell q) (gdc_inv d _ hws) hb1 hb2)

theorem reach_spinv (st : Spreadsheet) (h : Reach st) : SpInv st := by
  induction h with
  | init settings =>
    intro e he
    exact absurd he (List.not_mem_nil e)
  | submitH h name hn d q ih => exact submit_hours_preserves _ name d q hn ih
  | submitT h d q ih => exact submit_tips_preserves _ d q ih

theorem sheetCell_lookup (st : Spreadsheet) (n : String) (w : Worksheet) (r c : Nat)
    (h : lookupSheet st n = some w) : sheetCell st n r c = getCell w r c := by
  unfold sheetCell
  rw [h]


/-! ## Claim C10: a duplicate failure issues nothing -/

/-- C10: in every state reachable through the engine's own operations, when
`submit_hours` fails with the duplicate-entry error the entire call issued
no store event at all — no worksheet creation, no column or row allocation
and no cell write — and the spreadsheet is returned unchanged.  The
duplicate check can only trigger when the month sheet, the date column pair
and the employee row already exist, so nothing is allocated or written
before the raised error. -/
theorem duplicate_error_issues_no_writes (st : Spreadsheet) (name : String) (d : Date)
    (hours : ℚ) (who fd : String) (hr : Reach st)
    (hdup : (submit_hours st name d hours).1 = .error (.duplicateEntry who fd)) :
    (submit_hours st name d hours).2.2 = [] ∧ (submit_hours st name d hours).2.1 = st := by
  have hsp := reach_spinv st hr
  have hws := gms_inv st d hsp
  obtain ⟨row, herr, hcstr⟩ := submit_dup_inv st name d hours who fd hdup
  obtain ⟨hsd, hgdc, hger, hhc3, hhdr, hr6, hcw⟩ :=
    dup_situation (get_or_create_month_sheet st d).ws name d hws row herr hcstr
  cases hlk : lookupSheet st (monthSheetName d) with
  | none =>
    exfalso
    have hmf := month_sheet_fresh st d hlk
    rw [hmf.1, W0_date_scan_none (formatDMY d)] at hsd
    exact Option.noConfusion hsd
  | some w =>
    have hwinv := SpInv_lookup st _ w hsp hlk
    have hms := month_sheet_existing st d w hlk hwinv.a6 hwinv.b5
    rw [hms.1] at hgdc hger hcw
    have heq := dup_outcome st name d hours w
      ((get_or_create_date_column d w).1.1) row hlk hwinv.a6 hwinv.b5 hgdc hger hcw
    rw [heq]
    exact ⟨rfl, rfl⟩

theorem duplicate_error_issues_no_writes_witness :
    Reach (submit_hours (⟨[], none⟩ : Spreadsheet) "John Doe" ⟨2026, 1, 28⟩ 8).2.1 ∧
    (submit_hours (submit_hours (⟨[], none⟩ : Spreadsheet) "John Doe" ⟨2026, 1, 28⟩ 8).2.1
        "John Doe" ⟨2026, 1, 28⟩ 8).1
      = .error (.duplicateEntry "John Doe" (formatDMY ⟨2026, 1, 28⟩)) ∧
    (submit_hours (submit_hours (⟨[], none⟩ : Spreadsheet) "John Doe" ⟨2026, 1, 28⟩ 8).2.1
        "John Doe" ⟨2026, 1, 28⟩ 8).2.2 = [] ∧
    (submit_hours (submit_hours (⟨[], none⟩ : Spreadsheet) "John Doe" ⟨2026, 1, 28⟩ 8).2.1
        "John Doe" ⟨2026, 1, 28⟩ 8).2.1
      = (submit_hours (⟨[], none⟩ : Spreadsheet) "John Doe" ⟨2026, 1, 28⟩ 8).2.1 := by
  have hreach : Reach (submit_hours (⟨[], none⟩ : Spreadsheet) "John Doe" ⟨2026, 1, 28⟩ 8).2.1 :=
    Reach.submitH (Reach.init none) "John Doe" (by decide) ⟨2026, 1, 28⟩ 8
  have hdup : (submit_hours
      (submit_hours (⟨[], none⟩ : Spreadsheet) "John Doe" ⟨2026, 1, 28⟩ 8).2.1
      "John Doe" ⟨2026, 1, 28⟩ 8).1
      = .error (.duplicateEntry "John Doe" (formatDMY ⟨2026, 1, 28⟩)) := by
    set_option maxRecDepth 100000 in set_option maxHeartbeats 4000000 in rfl
  have hcon := duplicate_error_issues_no_writes
    (submit_hours (⟨[], none⟩ : Spreadsheet) "John Doe" ⟨2026, 1, 28⟩ 8).2.1
    "John Doe" ⟨2026, 1, 28⟩ 8 "John Doe" (formatDMY ⟨2026, 1, 28⟩) hreach hdup
  exact ⟨hreach, hdup, hcon.1, hcon.2⟩

/-! ## Claim C1: the write guard -/

/-- C1: in every reachable engine state, when the timesheet cell resolved
for an (employee, date) pair is already non-empty, `submit_hours` fails
with the duplicate-entry error, leaves the store unchanged and in
particular preserves the stored value of that cell; and a value once
successfully written is never overwritten by a second `submit_hours` call
with the same arguments — the second call fails with the duplicate-entry
error and leaves the store (hence the written value) unchanged.  The
second half assumes a non-empty employee name, which the API request model
guarantees (`min_length=1`). -/
theorem submit_hours_write_guard :
    (∀ (st : Spreadsheet) (name : String) (d : Date) (hours : ℚ) (row : Nat),
        Reach st →
        (get_or_create_employee_row name
            (get_or_create_date_column d (get_or_create_month_sheet st d).ws).2.1).1
          = .ok row →
        pyStrip (getCell (get_or_create_employee_row name
            (get_or_create_date_column d (get_or_create_month_sheet st d).ws).2.1).2.1 row
            (get_or_create_date_column d (get_or_create_month_sheet st d).ws).1.1) ≠ "" →
        (submit_hours st name d hours).1 = .error (.duplicateEntry name (formatDMY d)) ∧
        (submit_hours st name d hours).2.1 = st ∧
        sheetCell (submit_hours st name d hours).2.1 (monthSheetName d) row
            (get_or_create_date_column d (get_or_create_month_sheet st d).ws).1.1
          = sheetCell st (monthSheetName d) row
            (get_or_create_date_column d (get_or_create_month_sheet st d).ws).1.1) ∧
    (∀ (st : Spreadsheet) (name : String) (d : Date) (hours : ℚ) (out : SubmitOutcome),
        Reach st → name ≠ "" →
        (submit_hours st name d hours).1 = .ok out →
        sheetCell (submit_hours st name d hours).2.1 (monthSheetName d) out.row out.hoursCol
          = numCell hours ∧
        (submit_hours (submit_hours st name d hours).2.1 name d hours).1
          = .error (.duplicateEntry name (formatDMY d)) ∧
        (submit_hours (submit_hours st name d hours).2.1 name d hours).2.1
          = (submit_hours st name d hours).2.1) := by
  constructor
  · intro st name d hours row hr herr hcell
    have hsp := reach_spinv st hr
    have hws := gms_inv st d hsp
    obtain ⟨hsd, hgdc, hger, hhc3, hhdr, hr6, hcw⟩ :=
      dup_situation (get_or_create_month_sheet st d).ws name d hws row herr hcell
    cases hlk : lookupSheet st (monthSheetName d) with
    | none =>
      exfalso
      have hmf := month_sheet_fresh st d hlk
      rw [hmf.1, W0_date_scan_none (formatDMY d)] at hsd
      exact Option.noConfusion hsd
    | some w =>
      have hwinv := SpInv_lookup st _ w hsp hlk
      have hms := month_sheet_existing st d w hlk hwinv.a6 hwinv.b5
      rw [hms.1] at hgdc hger hcw
      have heq := dup_outcome st name d hours w
        ((get_or_create_date_column d w).1.1) row hlk hwinv.a6 hwinv.b5 hgdc hger hcw
      rw [heq]
      exact ⟨rfl, rfl, rfl⟩
  · intro st name d hours out hr hn hok
    have hsp := reach_spinv st hr
    have hws := gms_inv st d hsp
    obtain ⟨row, herr, hor, hoc, hst2⟩ := submit_ok_shape st name d hours out hok
    obtain ⟨hw3inv, hr6, hhc3, hhdr3, hname3⟩ :=
      resolve_target_facts (get_or_create_month_sheet st d).ws name d hn hws row herr
    set w4 := setCell (get_or_create_employee_row name
        (get_or_create_date_column d (get_or_create_month_sheet st d).ws).2.1).2.1 row
        (get_or_create_date_column d (get_or_create_month_sheet st d).ws).1.1
        (numCell hours) with hw4def
    have hw4 : WsInv w4 := by
      rw [hw4def]
      exact WsInv_cell_write _ row _ (numCell hours) hw3inv hr6 hhc3 hhdr3 hname3
    have hlk2 : lookupSheet (submit_hours st name d hours).2.1 (monthSheetName d)
        = some w4 := by
      rw [hst2]
      exact lookupSheet_putSheet st d w4
    have hcell4 : getCell w4 row
        (get_or_create_date_column d (get_or_create_month_sheet st d).ws).1.1
        = numCell hours := by
      rw [hw4def, getCell_setCell, if_pos ⟨rfl, rfl⟩]
    have hval : sheetCell (submit_hours st name d hours).2.1 (monthSheetName d) out.row
        out.hoursCol = numCell hours := by
      rw [hor, hoc, sheetCell_lookup _ _ _ _ _ hlk2]
      exact hcell4
    have hstab := resolve_stable (get_or_create_month_sheet st d).ws name d hn hws row
      (numCell hours) herr
    rw [← hw4def] at hstab
    have hgdc2 : get_or_create_date_column d w4
        = (((get_or_create_date_column d (get_or_create_month_sheet st d).ws).1.1, false),
           w4, []) := by
      have hfound := date_col_found d w4
        ((get_or_create_date_column d (get_or_create_month_sheet st d).ws).1.1 + 1) hstab.1
      rw [Nat.add_sub_cancel] at hfound
      exact hfound
    have hger2 : get_or_create_employee_row name w4 = (.ok row, w4, []) :=
      emp_row_found name w4 row hstab.2
    have hcstr : pyStrip (getCell w4 row
        (get_or_create_date_column d (get_or_create_month_sheet st d).ws).1.1) ≠ "" := by
      rw [hcell4]
      exact numCell_strip_ne hours
    have heq2 := dup_outcome (submit_hours st name d hours).2.1 name d hours w4
      ((get_or_create_date_column d (get_or_create_month_sheet st d).ws).1.1) row hlk2
      hw4.a6 hw4.b5 hgdc2 hger2 hcstr
    exact ⟨hval, by rw [heq2], by rw [heq2]⟩

theorem submit_hours_write_guard_witness :
    (("John Doe" : String) ≠ "") ∧
    (submit_hours (⟨[], none⟩ : Spreadsheet) "John Doe" ⟨2026, 1, 28⟩ 8).1
        = .ok ⟨6, 3, true⟩ ∧
    sheetCell (submit_hours (⟨[], none⟩ : Spreadsheet) "John Doe" ⟨2026, 1, 28⟩ 8).2.1
        (monthSheetName ⟨2026, 1, 28⟩) 6 3 = numCell 8 ∧
    (submit_hours (submit_hours (⟨[], none⟩ : Spreadsheet) "John Doe" ⟨2026, 1, 28⟩ 8).2.1
        "John Doe" ⟨2026, 1, 28⟩ 8).1
      = .error (.duplicateEntry "John Doe" (formatDMY ⟨2026, 1, 28⟩)) ∧
    (submit_hours (submit_hours (⟨[], none⟩ : Spreadsheet) "John Doe" ⟨2026, 1, 28⟩ 8).2.1
        "John Doe" ⟨2026, 1, 28⟩ 8).2.1
      = (submit_hours (⟨[], none⟩ : Spreadsheet) "John Doe" ⟨2026, 1, 28⟩ 8).2.1 := by
  have hn : ("John Doe" : String) ≠ "" := by decide
  have hreach0 : Reach (⟨[], none⟩ : Spreadsheet) := Reach.init none
  have hok : (submit_hours (⟨[], none⟩ : Spreadsheet) "John Doe" ⟨2026, 1, 28⟩ 8).1
      = .ok ⟨6, 3, true⟩ := by
    set_option maxRecDepth 100000 in set_option maxHeartbeats 4000000 in rfl
  have hreach1 : Reach (submit_hours (⟨[], none⟩ : Spreadsheet)
      "John Doe" ⟨2026, 1, 28⟩ 8).2.1 :=
    Reach.submitH (Reach.init none) "John Doe" hn ⟨2026, 1, 28⟩ 8
  have herrA : (get_or_create_employee_row "John Doe"
      (get_or_create_date_column ⟨2026, 1, 28⟩
        (get_or_create_month_sheet (submit_hours (⟨[], none⟩ : Spreadsheet)
          "John Doe" ⟨2026, 1, 28⟩ 8).2.1 ⟨2026, 1, 28⟩).ws).2.1).1 = .ok 6 := by
    set_option maxRecDepth 100000 in set_option maxHeartbeats 4000000 in rfl
  have hcellA : pyStrip (getCell (get_or_create_employee_row "John Doe"
      (get_or_create_date_column ⟨2026, 1, 28⟩
        (get_or_create_month_sheet (submit_hours (⟨[], none⟩ : Spreadsheet)
          "John Doe" ⟨2026, 1, 28⟩ 8).2.1 ⟨2026, 1, 28⟩).ws).2.1).2.1 6
      (get_or_create_date_column ⟨2026, 1, 28⟩
        (get_or_create_month_sheet (submit_hours (⟨[], none⟩ : Spreadsheet)
          "John Doe" ⟨2026, 1, 28⟩ 8).2.1 ⟨2026, 1, 28⟩).ws).1.1) ≠ "" := by
    set_option maxRecDepth 100000 in set_option maxHeartbeats 4000000 in decide
  have hA := submit_hours_write_guard.1
    (submit_hours (⟨[], none⟩ : Spreadsheet) "John Doe" ⟨2026, 1, 28⟩ 8).2.1
    "John Doe" ⟨2026, 1, 28⟩ 8 6 hreach1 herrA hcellA
  have hB := submit_hours_write_guard.2 (⟨[], none⟩ : Spreadsheet) "John Doe" ⟨2026, 1, 28⟩ 8
    ⟨6, 3, true⟩ hreach0 hn hok
  exact ⟨hn, hok, hB.1, hA.1, hA.2.1⟩

end VilaAcadia
